import Mathlib

/-!
Verification of the chess position engine (bit-packed board, legal move
generator, make/unmake, game-termination logic).

Shallow embedding conventions:
* `u64` bitboards are `Nat` values below `2^64`; Rust `!x` on `u64` is
  `x ^^^ (2^64 - 1)`, `wrapping_sub` is modelled with explicit `% 2^64`.
* The `bitboard` and `precomputed` modules of the repository are not under
  `src/`; the bit-set operations they provide (`has`, `count`, `is_empty`,
  `next_square`, iteration in LSB-first order) and the magic-table lookups
  are modelled from the spec where so marked.
* Rust loops over the set bits of a `u64` are modelled with an explicit
  fuel of 64 (a `u64` has at most 64 set bits), and ray walks on the 8x8
  board with a fuel of 8 (a ray has at most 7 steps).
* Fatal paths (`unreachable!`, `expect`, arithmetic overflow panics) are
  modelled as explicitly marked no-op or `.fatal` outcomes; they are never
  reached by the inputs the theorems below exercise unless stated.
-/

namespace Engine

/-- All 64 bits set: `u64::MAX`, the value of Rust `!0u64`. -/
def U64MAX : Nat := 2 ^ 64 - 1

/-- Rust `!x` for `x : u64` (bitwise complement in 64 bits). -/
def bnot64 (x : Nat) : Nat := x ^^^ U64MAX

/-- Trailing-zero count with explicit fuel; `tzAux 64 0 = 64` matches
`0u64.trailing_zeros() == 64`. -/
def tzAux : Nat → Nat → Nat
  | 0, _ => 0
  | fuel + 1, n => if n % 2 = 1 then 0 else 1 + tzAux fuel (n / 2)

/-- Rust `u64::trailing_zeros` (64 on input 0). -/
def tz64 (n : Nat) : Nat := tzAux 64 n

/-- Population count with explicit fuel of 64 (inputs are `u64`). -/
def popcntAux : Nat → Nat → Nat
  | 0, _ => 0
  | fuel + 1, n => n % 2 + popcntAux fuel (n / 2)

/-- Rust `u64::count_ones` for `u64` inputs; the spec's bit-set
population count. -/
def popcnt64 (n : Nat) : Nat := popcntAux 64 n

/-- Modelled from the spec: the bit-set membership test
(`BitBoard::has`, bitboard module absent from `src/`): bit `i` set iff
square `i` is a member. -/
def bbHas (bb : Nat) (sq : Nat) : Bool := bb.testBit sq

/-- Modelled from the spec: `BitBoard::next_square`, the
"extract lowest set square" iteration primitive (bitboard module absent
from `src/`). -/
def next_square (bb : Nat) : Option Nat :=
  if bb = 0 then none else some (tz64 bb)

/-- `src/board.rs`: `Color`. -/
inductive Color where
  | White
  | Black
deriving DecidableEq, Repr

/-- `src/board.rs`: `Color::opposite`. -/
def Color.opposite : Color → Color
  | Color.White => Color.Black
  | Color.Black => Color.White

/-- `src/board.rs`: `Piece`. -/
inductive Piece where
  | Pawn
  | Knight
  | Bishop
  | Rook
  | Queen
  | King
deriving DecidableEq, Repr

/-- `src/moves.rs`: `Flags` (move-kind flag). -/
inductive Flags where
  | Normal
  | DoublePawnPush
  | EnPassant
  | Castling
  | Capture
  | Promotion
  | PromotionCapture
deriving DecidableEq, Repr

/-- `src/consts.rs`: `Square::bb` — the one-bit board of a square. -/
def sqBB (sq : Nat) : Nat := 1 <<< sq

/-- `src/consts.rs`: `Square::file` as a raw index (`self as usize & 0b111`). -/
def sqFile (sq : Nat) : Nat := sq &&& 7

/-- `src/consts.rs`: `Square::rank` as a raw index (`self as usize >> 3`). -/
def sqRank (sq : Nat) : Nat := sq >>> 3

/-- `src/consts.rs`: `Square::try_index` — checked square constructor. -/
def sq_try_index (idx : Nat) : Option Nat :=
  if idx < 64 then some idx else none

/-- `src/consts.rs`: `Square::try_offset` — shift a square by a
file/rank delta, `none` when it leaves the 8x8 grid. -/
def try_offset (sq : Nat) (df dr : Int) : Option Nat :=
  let nf : Int := (sqFile sq : Int) + df
  let nr : Int := (sqRank sq : Int) + dr
  if 0 ≤ nf ∧ nf < 8 ∧ 0 ≤ nr ∧ nr < 8 then
    some ((nr * 8 + nf).toNat)
  else
    none

/-- `src/magic_gen.rs`: `ROOK_DELTAS`. -/
def ROOK_DELTAS : List (Int × Int) := [(1, 0), (0, -1), (-1, 0), (0, 1)]

/-- `src/magic_gen.rs`: `BISHOP_DELTAS`. -/
def BISHOP_DELTAS : List (Int × Int) := [(1, 1), (1, -1), (-1, -1), (-1, 1)]

/-- One ray of `Piece::sliding_moves` (`src/board.rs`): starting at
`ray`, while the current square is not a blocker, step by the delta and
accumulate the reached square.  Fuel 8 covers the at most 7 steps of a
ray on the 8x8 board. -/
def ray_walk (blockers : Nat) (df dr : Int) : Nat → Nat → Nat → Nat
  | 0, _, acc => acc
  | fuel + 1, ray, acc =>
    if bbHas blockers ray then acc
    else
      match try_offset ray df dr with
      | some s => ray_walk blockers df dr fuel s (acc ||| sqBB s)
      | none => acc

/-- `src/board.rs`: `Piece::sliding_moves` — ray-cast attack set of a
rook or bishop on `square` against `blockers` (any other piece takes the
`unreachable!` branch, modelled as the empty set). -/
def sliding_moves (p : Piece) (square : Nat) (blockers : Nat) : Nat :=
  let deltas := match p with
    | Piece.Rook => ROOK_DELTAS
    | Piece.Bishop => BISHOP_DELTAS
    | _ => []
  deltas.foldl (fun acc (d : Int × Int) =>
    ray_walk blockers d.1 d.2 8 square acc) 0

/-- One ray of `relevant_blockers` (`src/magic_gen.rs`): add the current
square and step while the step stays on the board. -/
def blocker_ray (df dr : Int) : Nat → Nat → Nat → Nat
  | 0, _, acc => acc
  | fuel + 1, ray, acc =>
    match try_offset ray df dr with
    | some s => blocker_ray df dr fuel s (acc ||| sqBB ray)
    | none => acc

/-- `src/magic_gen.rs`: `relevant_blockers` — the relevant-blocker mask
of a sliding piece on `square` (ray squares short of the edge, minus the
square itself). -/
def relevant_blockers (p : Piece) (square : Nat) : Nat :=
  let deltas := match p with
    | Piece.Rook => ROOK_DELTAS
    | Piece.Bishop => BISHOP_DELTAS
    | _ => []
  let b := deltas.foldl (fun acc (d : Int × Int) =>
    blocker_ray d.1 d.2 8 square acc) 0
  b &&& bnot64 (sqBB square)

/-- Modelled from the spec: `get_rook_moves` (`src/sliding_pieces/mod.rs`)
reads the magic tables of the absent `precomputed` module; per the spec's
magic-correctness contract the lookup returns the ray-cast attack set for
the occupancy masked to the square's relevant-blocker mask. -/
def get_rook_moves (square : Nat) (blockers : Nat) : Nat :=
  sliding_moves Piece.Rook square (blockers &&& relevant_blockers Piece.Rook square)

/-- Modelled from the spec: `get_bishop_moves`
(`src/sliding_pieces/mod.rs`), as for `get_rook_moves`. -/
def get_bishop_moves (square : Nat) (blockers : Nat) : Nat :=
  sliding_moves Piece.Bishop square (blockers &&& relevant_blockers Piece.Bishop square)

/-- `src/sliding_pieces/mod.rs`: `get_queen_moves` — union of the rook
and bishop lookups. -/
def get_queen_moves (square : Nat) (blockers : Nat) : Nat :=
  get_rook_moves square blockers ||| get_bishop_moves square blockers

/-- `src/consts.rs`: castling-rights bit `W_KINGSIDE_RIGHTS`. -/
def W_KINGSIDE_RIGHTS : Nat := 1
/-- `src/consts.rs`: castling-rights bit `W_QUEENSIDE_RIGHTS`. -/
def W_QUEENSIDE_RIGHTS : Nat := 2
/-- `src/consts.rs`: castling-rights bit `B_KINGSIDE_RIGHTS`. -/
def B_KINGSIDE_RIGHTS : Nat := 4
/-- `src/consts.rs`: castling-rights bit `B_QUEENSIDE_RIGHTS`. -/
def B_QUEENSIDE_RIGHTS : Nat := 8

/-- Rust `!x` on a `u8` castling-rights mask. -/
def bnot8 (x : Nat) : Nat := x ^^^ 255

/-- `src/moves.rs`: `Move`.  The Rust field `from` is a Lean keyword and
is rendered `from_sq`, and `to` (a Mathlib token) `to_sq`. -/
structure Move where
  from_sq : Nat
  to_sq : Nat
  piece : Piece
  captured_piece : Option Piece
  promotion : Option Piece
  flags : Flags
deriving DecidableEq, Repr

/-- `src/board.rs`: `Undo` — snapshot pushed by `make_move`. -/
structure Undo where
  captured : Option (Nat × Piece × Color)
  castling_rights : Nat
  ep_square : Option Nat
  halfmove_clock : Nat
  fullmove_number : Nat
deriving DecidableEq, Repr

/-- `src/board.rs`: `Board`. -/
structure Board where
  white_pawns : Nat
  white_knights : Nat
  white_bishops : Nat
  white_rooks : Nat
  white_queens : Nat
  white_king : Nat
  black_pawns : Nat
  black_knights : Nat
  black_bishops : Nat
  black_rooks : Nat
  black_queens : Nat
  black_king : Nat
  white_occupied : Nat
  black_occupied : Nat
  occupied : Nat
  empty : Nat
  turn : Color
  castling_rights : Nat
  en_passant_square : Option Nat
  halfmove_clock : Nat
  fullmove_number : Nat
  zobrist_hash : Nat
  history : List Undo
deriving DecidableEq, Repr

namespace Board

/-- `src/board.rs`: `Board::default` — the standard initial position. -/
def default : Board where
  white_pawns := 0x000000000000FF00
  white_knights := 0x0000000000000042
  white_bishops := 0x0000000000000024
  white_rooks := 0x0000000000000081
  white_queens := 0x0000000000000008
  white_king := 0x0000000000000010
  black_pawns := 0x00FF000000000000
  black_knights := 0x4200000000000000
  black_bishops := 0x2400000000000000
  black_rooks := 0x8100000000000000
  black_queens := 0x0800000000000000
  black_king := 0x1000000000000000
  white_occupied := 0x000000000000FFFF
  black_occupied := 0xFFFF000000000000
  occupied := 0xFFFF00000000FFFF
  empty := bnot64 0xFFFF00000000FFFF
  turn := Color.White
  castling_rights := 0b1111
  en_passant_square := none
  halfmove_clock := 0
  fullmove_number := 1
  zobrist_hash := 0
  history := []

/-- `src/board.rs`: `Board::piece_on_square` — resolve the occupant of a
square by bit-set membership. -/
def piece_on_square (b : Board) (square : Nat) : Option (Piece × Color) :=
  let sbit := sqBB square
  if b.white_occupied &&& sbit ≠ 0 then
    if b.white_pawns &&& sbit ≠ 0 then some (Piece.Pawn, Color.White)
    else if b.white_knights &&& sbit ≠ 0 then some (Piece.Knight, Color.White)
    else if b.white_bishops &&& sbit ≠ 0 then some (Piece.Bishop, Color.White)
    else if b.white_rooks &&& sbit ≠ 0 then some (Piece.Rook, Color.White)
    else if b.white_queens &&& sbit ≠ 0 then some (Piece.Queen, Color.White)
    else if b.white_king &&& sbit ≠ 0 then some (Piece.King, Color.White)
    else none
  else if b.black_occupied &&& sbit ≠ 0 then
    if b.black_pawns &&& sbit ≠ 0 then some (Piece.Pawn, Color.Black)
    else if b.black_knights &&& sbit ≠ 0 then some (Piece.Knight, Color.Black)
    else if b.black_bishops &&& sbit ≠ 0 then some (Piece.Bishop, Color.Black)
    else if b.black_rooks &&& sbit ≠ 0 then some (Piece.Rook, Color.Black)
    else if b.black_queens &&& sbit ≠ 0 then some (Piece.Queen, Color.Black)
    else if b.black_king &&& sbit ≠ 0 then some (Piece.King, Color.Black)
    else none
  else none

/-- `src/board.rs`: `Board::add_piece` — set the square's bit in the
matching piece set, the color occupancy, and the totals. -/
def add_piece (b : Board) (square : Nat) (piece : Piece) (color : Color) : Board :=
  let sbit := sqBB square
  let b := match color with
    | Color.White =>
      let b := { b with white_occupied := b.white_occupied ||| sbit }
      match piece with
      | Piece.Pawn => { b with white_pawns := b.white_pawns ||| sbit }
      | Piece.Knight => { b with white_knights := b.white_knights ||| sbit }
      | Piece.Bishop => { b with white_bishops := b.white_bishops ||| sbit }
      | Piece.Rook => { b with white_rooks := b.white_rooks ||| sbit }
      | Piece.Queen => { b with white_queens := b.white_queens ||| sbit }
      | Piece.King => { b with white_king := b.white_king ||| sbit }
    | Color.Black =>
      let b := { b with black_occupied := b.black_occupied ||| sbit }
      match piece with
      | Piece.Pawn => { b with black_pawns := b.black_pawns ||| sbit }
      | Piece.Knight => { b with black_knights := b.black_knights ||| sbit }
      | Piece.Bishop => { b with black_bishops := b.black_bishops ||| sbit }
      | Piece.Rook => { b with black_rooks := b.black_rooks ||| sbit }
      | Piece.Queen => { b with black_queens := b.black_queens ||| sbit }
      | Piece.King => { b with black_king := b.black_king ||| sbit }
  { b with occupied := b.occupied ||| sbit, empty := b.empty &&& bnot64 sbit }

/-- `src/board.rs`: `Board::delete_piece` — clear the occupant's bit
from its piece set, its color occupancy and the totals; no-op if the
square is empty. -/
def delete_piece (b : Board) (square : Nat) : Board :=
  let sbit := sqBB square
  match b.piece_on_square square with
  | none => b
  | some (piece, color) =>
    let b := match color with
      | Color.White =>
        let b := { b with white_occupied := b.white_occupied ^^^ sbit }
        match piece with
        | Piece.Pawn => { b with white_pawns := b.white_pawns ^^^ sbit }
        | Piece.Knight => { b with white_knights := b.white_knights ^^^ sbit }
        | Piece.Bishop => { b with white_bishops := b.white_bishops ^^^ sbit }
        | Piece.Rook => { b with white_rooks := b.white_rooks ^^^ sbit }
        | Piece.Queen => { b with white_queens := b.white_queens ^^^ sbit }
        | Piece.King => { b with white_king := b.white_king ^^^ sbit }
      | Color.Black =>
        let b := { b with black_occupied := b.black_occupied ^^^ sbit }
        match piece with
        | Piece.Pawn => { b with black_pawns := b.black_pawns ^^^ sbit }
        | Piece.Knight => { b with black_knights := b.black_knights ^^^ sbit }
        | Piece.Bishop => { b with black_bishops := b.black_bishops ^^^ sbit }
        | Piece.Rook => { b with black_rooks := b.black_rooks ^^^ sbit }
        | Piece.Queen => { b with black_queens := b.black_queens ^^^ sbit }
        | Piece.King => { b with black_king := b.black_king ^^^ sbit }
    { b with occupied := b.occupied ^^^ sbit, empty := b.empty ||| sbit }

/-- The occupancy recomputation `make_move` and `unmake_move` share
(`src/board.rs`): color occupancies as unions of the six piece sets,
total occupancy, and its complement `empty`. -/
def recompute_occupancy (b : Board) : Board :=
  let wo := b.white_pawns ||| b.white_knights ||| b.white_bishops |||
    b.white_rooks ||| b.white_queens ||| b.white_king
  let bo := b.black_pawns ||| b.black_knights ||| b.black_bishops |||
    b.black_rooks ||| b.black_queens ||| b.black_king
  { b with white_occupied := wo, black_occupied := bo,
           occupied := wo ||| bo, empty := bnot64 (wo ||| bo) }

/-- The piece-placement portion of `make_move` (`src/board.rs`): clear
`from` in the mover's matching set, clear a captured opponent piece at
`to`, set `to` in the promotion piece's set (promotion to a pawn or king
is the source's `unreachable!`, modelled as no placement) or the moved
piece's set, then recompute the occupancies. -/
def make_move_pieces (b : Board) (mv : Move) : Board :=
  let from_bit := sqBB mv.from_sq
  let to_bit := sqBB mv.to_sq
  let b :=
    match b.turn with
    | Color.White =>
      let b :=
        if b.white_pawns &&& from_bit ≠ 0 then
          { b with white_pawns := b.white_pawns &&& bnot64 from_bit }
        else if b.white_knights &&& from_bit ≠ 0 then
          { b with white_knights := b.white_knights &&& bnot64 from_bit }
        else if b.white_bishops &&& from_bit ≠ 0 then
          { b with white_bishops := b.white_bishops &&& bnot64 from_bit }
        else if b.white_rooks &&& from_bit ≠ 0 then
          { b with white_rooks := b.white_rooks &&& bnot64 from_bit }
        else if b.white_queens &&& from_bit ≠ 0 then
          { b with white_queens := b.white_queens &&& bnot64 from_bit }
        else if b.white_king &&& from_bit ≠ 0 then
          { b with white_king := b.white_king &&& bnot64 from_bit }
        else b
      let b :=
        if b.black_occupied &&& to_bit ≠ 0 then
          if b.black_pawns &&& to_bit ≠ 0 then
            { b with black_pawns := b.black_pawns &&& bnot64 to_bit }
          else if b.black_knights &&& to_bit ≠ 0 then
            { b with black_knights := b.black_knights &&& bnot64 to_bit }
          else if b.black_bishops &&& to_bit ≠ 0 then
            { b with black_bishops := b.black_bishops &&& bnot64 to_bit }
          else if b.black_rooks &&& to_bit ≠ 0 then
            { b with black_rooks := b.black_rooks &&& bnot64 to_bit }
          else if b.black_queens &&& to_bit ≠ 0 then
            { b with black_queens := b.black_queens &&& bnot64 to_bit }
          else if b.black_king &&& to_bit ≠ 0 then
            { b with black_king := b.black_king &&& bnot64 to_bit }
          else b
        else b
      match mv.promotion with
      | some pp =>
        match pp with
        | Piece.Queen => { b with white_queens := b.white_queens ||| to_bit }
        | Piece.Rook => { b with white_rooks := b.white_rooks ||| to_bit }
        | Piece.Bishop => { b with white_bishops := b.white_bishops ||| to_bit }
        | Piece.Knight => { b with white_knights := b.white_knights ||| to_bit }
        | _ => b
      | none =>
        match mv.piece with
        | Piece.Pawn => { b with white_pawns := b.white_pawns ||| to_bit }
        | Piece.Knight => { b with white_knights := b.white_knights ||| to_bit }
        | Piece.Bishop => { b with white_bishops := b.white_bishops ||| to_bit }
        | Piece.Rook => { b with white_rooks := b.white_rooks ||| to_bit }
        | Piece.Queen => { b with white_queens := b.white_queens ||| to_bit }
        | Piece.King => { b with white_king := b.white_king ||| to_bit }
    | Color.Black =>
      let b :=
        if b.black_pawns &&& from_bit ≠ 0 then
          { b with black_pawns := b.black_pawns &&& bnot64 from_bit }
        else if b.black_knights &&& from_bit ≠ 0 then
          { b with black_knights := b.black_knights &&& bnot64 from_bit }
        else if b.black_bishops &&& from_bit ≠ 0 then
          { b with black_bishops := b.black_bishops &&& bnot64 from_bit }
        else if b.black_rooks &&& from_bit ≠ 0 then
          { b with black_rooks := b.black_rooks &&& bnot64 from_bit }
        else if b.black_queens &&& from_bit ≠ 0 then
          { b with black_queens := b.black_queens &&& bnot64 from_bit }
        else if b.black_king &&& from_bit ≠ 0 then
          { b with black_king := b.black_king &&& bnot64 from_bit }
        else b
      let b :=
        if b.white_occupied &&& to_bit ≠ 0 then
          if b.white_pawns &&& to_bit ≠ 0 then
            { b with white_pawns := b.white_pawns &&& bnot64 to_bit }
          else if b.white_knights &&& to_bit ≠ 0 then
            { b with white_knights := b.white_knights &&& bnot64 to_bit }
          else if b.white_bishops &&& to_bit ≠ 0 then
            { b with white_bishops := b.white_bishops &&& bnot64 to_bit }
          else if b.white_rooks &&& to_bit ≠ 0 then
            { b with white_rooks := b.white_rooks &&& bnot64 to_bit }
          else if b.white_queens &&& to_bit ≠ 0 then
            { b with white_queens := b.white_queens &&& bnot64 to_bit }
          else if b.white_king &&& to_bit ≠ 0 then
            { b with white_king := b.white_king &&& bnot64 to_bit }
          else b
        else b
      match mv.promotion with
      | some pp =>
        match pp with
        | Piece.Queen => { b with black_queens := b.black_queens ||| to_bit }
        | Piece.Rook => { b with black_rooks := b.black_rooks ||| to_bit }
        | Piece.Bishop => { b with black_bishops := b.black_bishops ||| to_bit }
        | Piece.Knight => { b with black_knights := b.black_knights ||| to_bit }
        | _ => b
      | none =>
        match mv.piece with
        | Piece.Pawn => { b with black_pawns := b.black_pawns ||| to_bit }
        | Piece.Knight => { b with black_knights := b.black_knights ||| to_bit }
        | Piece.Bishop => { b with black_bishops := b.black_bishops ||| to_bit }
        | Piece.Rook => { b with black_rooks := b.black_rooks ||| to_bit }
        | Piece.Queen => { b with black_queens := b.black_queens ||| to_bit }
        | Piece.King => { b with black_king := b.black_king ||| to_bit }
  recompute_occupancy b

/-- The castling branch of `make_move` (`src/board.rs`), rook part: when
the move is flagged `Castling` and starts on E1 (square 4) or E8
(square 60), relocate the rook (to G1/G8 means kingside, any other
destination queenside). -/
def castling_rook_relocation (b : Board) (mv : Move) : Board :=
  if mv.flags = Flags.Castling then
    if mv.from_sq = 4 then
      if mv.to_sq = 6 then (b.delete_piece 7).add_piece 5 Piece.Rook b.turn
      else (b.delete_piece 0).add_piece 3 Piece.Rook b.turn
    else if mv.from_sq = 60 then
      if mv.to_sq = 62 then (b.delete_piece 63).add_piece 61 Piece.Rook b.turn
      else (b.delete_piece 56).add_piece 59 Piece.Rook b.turn
    else b
  else b

/-- The castling branch of `make_move` (`src/board.rs`), rights part:
clears both rights of the side whose home square the move starts on. -/
def rights_after_castling_flag (rights : Nat) (mv : Move) : Nat :=
  if mv.flags = Flags.Castling then
    if mv.from_sq = 4 then
      rights &&& bnot8 W_KINGSIDE_RIGHTS &&& bnot8 W_QUEENSIDE_RIGHTS
    else if mv.from_sq = 60 then
      rights &&& bnot8 B_KINGSIDE_RIGHTS &&& bnot8 B_QUEENSIDE_RIGHTS
    else rights
  else rights

/-- The king branch of `make_move` (`src/board.rs`): a king move from E1
(square 4) clears both White rights, from E8 (square 60) both Black
rights, and from anywhere else clears nothing. -/
def rights_after_king (rights : Nat) (mv : Move) : Nat :=
  if mv.piece = Piece.King then
    if mv.from_sq = 4 then
      rights &&& bnot8 W_KINGSIDE_RIGHTS &&& bnot8 W_QUEENSIDE_RIGHTS
    else if mv.from_sq = 60 then
      rights &&& bnot8 B_KINGSIDE_RIGHTS &&& bnot8 B_QUEENSIDE_RIGHTS
    else rights
  else rights

/-- The rook branch of `make_move` (`src/board.rs`): a rook move from
an original corner square clears the matching single right. -/
def rights_after_rook (rights : Nat) (mv : Move) : Nat :=
  if mv.piece = Piece.Rook then
    let r :=
      if mv.from_sq = 0 then rights &&& bnot8 W_QUEENSIDE_RIGHTS
      else if mv.from_sq = 7 then rights &&& bnot8 W_KINGSIDE_RIGHTS
      else rights
    if mv.from_sq = 56 then r &&& bnot8 B_QUEENSIDE_RIGHTS
    else if mv.from_sq = 63 then r &&& bnot8 B_KINGSIDE_RIGHTS
    else r
  else rights

/-- The en-passant branch of `make_move` (`src/board.rs`): remove the
opponent pawn on the square one rank behind the destination, computed in
wrapping `u8` arithmetic; an off-board victim square is the source's
`unreachable!`, modelled as no deletion. -/
def en_passant_capture (b : Board) (mv : Move) : Board :=
  if mv.flags = Flags.EnPassant then
    let idx : Nat :=
      if b.turn = Color.White then (mv.to_sq + 256 - 8) % 256
      else (mv.to_sq + 8) % 256
    match sq_try_index idx with
    | some sq => b.delete_piece sq
    | none => b
  else b

/-- `src/board.rs`: `Board::make_move`.  Pushes the undo snapshot, moves
the pieces, updates en-passant target, halfmove clock (the source tests
`self.occupied & to_bit` after the occupancy recomputation), fullmove
number and castling rights, performs rook relocation and en-passant
removal, and flips the side to move. -/
def make_move (b : Board) (mv : Move) : Board :=
  let undo : Undo :=
    { captured := mv.captured_piece.map (fun pc => (mv.to_sq, pc, b.turn.opposite))
      castling_rights := b.castling_rights
      ep_square := b.en_passant_square
      halfmove_clock := b.halfmove_clock
      fullmove_number := b.fullmove_number }
  let b0 := { b with history := undo :: b.history }
  let b1 := make_move_pieces b0 mv
  let b2 :=
    if mv.piece = Piece.Pawn ∧ ((mv.to_sq : Int) - (mv.from_sq : Int)).natAbs = 16 then
      { b1 with en_passant_square := some ((mv.from_sq + mv.to_sq) / 2) }
    else
      { b1 with en_passant_square := none }
  let b3 :=
    if mv.piece = Piece.Pawn ∨ b2.occupied &&& sqBB mv.to_sq ≠ 0 then
      { b2 with halfmove_clock := 0 }
    else
      { b2 with halfmove_clock := b2.halfmove_clock + 1 }
  let b4 :=
    if b3.turn = Color.Black then { b3 with fullmove_number := b3.fullmove_number + 1 }
    else b3
  let b5 := castling_rook_relocation b4 mv
  let b5r := { b5 with castling_rights := rights_after_castling_flag b5.castling_rights mv }
  let b6 := { b5r with castling_rights := rights_after_king b5r.castling_rights mv }
  let b7 := { b6 with castling_rights := rights_after_rook b6.castling_rights mv }
  let b8 := en_passant_capture b7 mv
  { b8 with turn := b8.turn.opposite }

/-- `src/board.rs`: `Board::unmake_move`.  Pops the undo snapshot
(calling with an empty history is the source's `expect` panic, modelled
as the identity), restores the scalar fields, reverses the piece
placement and promotion, restores a captured piece at the snapshot's
recorded square, reverses the castling rook relocation, recomputes
occupancies and flips the side to move back. -/
def unmake_move (b : Board) (mv : Move) : Board :=
  match b.history with
  | [] => b
  | undo :: rest =>
    let b := { b with history := rest
                      castling_rights := undo.castling_rights
                      en_passant_square := undo.ep_square
                      halfmove_clock := undo.halfmove_clock
                      fullmove_number := undo.fullmove_number }
    let from_bit := sqBB mv.from_sq
    let to_bit := sqBB mv.to_sq
    let b :=
      match b.turn.opposite with
      | Color.White =>
        match mv.promotion with
        | some pp =>
          let b :=
            match pp with
            | Piece.Queen => { b with white_queens := b.white_queens &&& bnot64 to_bit }
            | Piece.Rook => { b with white_rooks := b.white_rooks &&& bnot64 to_bit }
            | Piece.Bishop => { b with white_bishops := b.white_bishops &&& bnot64 to_bit }
            | Piece.Knight => { b with white_knights := b.white_knights &&& bnot64 to_bit }
            | _ => b
          { b with white_pawns := b.white_pawns ||| from_bit }
        | none =>
          match mv.piece with
          | Piece.Pawn =>
            { b with white_pawns := b.white_pawns &&& bnot64 to_bit ||| from_bit }
          | Piece.Knight =>
            { b with white_knights := b.white_knights &&& bnot64 to_bit ||| from_bit }
          | Piece.Bishop =>
            { b with white_bishops := b.white_bishops &&& bnot64 to_bit ||| from_bit }
          | Piece.Rook =>
            { b with white_rooks := b.white_rooks &&& bnot64 to_bit ||| from_bit }
          | Piece.Queen =>
            { b with white_queens := b.white_queens &&& bnot64 to_bit ||| from_bit }
          | Piece.King =>
            { b with white_king := b.white_king &&& bnot64 to_bit ||| from_bit }
      | Color.Black =>
        match mv.promotion with
        | some pp =>
          let b :=
            match pp with
            | Piece.Queen => { b with black_queens := b.black_queens &&& bnot64 to_bit }
            | Piece.Rook => { b with black_rooks := b.black_rooks &&& bnot64 to_bit }
            | Piece.Bishop => { b with black_bishops := b.black_bishops &&& bnot64 to_bit }
            | Piece.Knight => { b with black_knights := b.black_knights &&& bnot64 to_bit }
            | _ => b
          { b with black_pawns := b.black_pawns ||| from_bit }
        | none =>
          match mv.piece with
          | Piece.Pawn =>
            { b with black_pawns := b.black_pawns &&& bnot64 to_bit ||| from_bit }
          | Piece.Knight =>
            { b with black_knights := b.black_knights &&& bnot64 to_bit ||| from_bit }
          | Piece.Bishop =>
            { b with black_bishops := b.black_bishops &&& bnot64 to_bit ||| from_bit }
          | Piece.Rook =>
            { b with black_rooks := b.black_rooks &&& bnot64 to_bit ||| from_bit }
          | Piece.Queen =>
            { b with black_queens := b.black_queens &&& bnot64 to_bit ||| from_bit }
          | Piece.King =>
            { b with black_king := b.black_king &&& bnot64 to_bit ||| from_bit }
    let b :=
      match undo.captured with
      | none => b
      | some (sq, piece, color) =>
        let bb := sqBB sq
        match piece, color with
        | Piece.Pawn, Color.White => { b with white_pawns := b.white_pawns ||| bb }
        | Piece.Knight, Color.White => { b with white_knights := b.white_knights ||| bb }
        | Piece.Bishop, Color.White => { b with white_bishops := b.white_bishops ||| bb }
        | Piece.Rook, Color.White => { b with white_rooks := b.white_rooks ||| bb }
        | Piece.Queen, Color.White => { b with white_queens := b.white_queens ||| bb }
        | Piece.Pawn, Color.Black => { b with black_pawns := b.black_pawns ||| bb }
        | Piece.Knight, Color.Black => { b with black_knights := b.black_knights ||| bb }
        | Piece.Bishop, Color.Black => { b with black_bishops := b.black_bishops ||| bb }
        | Piece.Rook, Color.Black => { b with black_rooks := b.black_rooks ||| bb }
        | Piece.Queen, Color.Black => { b with black_queens := b.black_queens ||| bb }
        | _, _ => b
    let b :=
      if mv.flags = Flags.Castling then
        match mv.piece, mv.to_sq with
        | Piece.King, 6 =>
          { b with white_rooks := b.white_rooks &&& bnot64 (sqBB 5) ||| sqBB 7 }
        | Piece.King, 2 =>
          { b with white_rooks := b.white_rooks &&& bnot64 (sqBB 3) ||| sqBB 0 }
        | Piece.King, 62 =>
          { b with black_rooks := b.black_rooks &&& bnot64 (sqBB 61) ||| sqBB 63 }
        | Piece.King, 58 =>
          { b with black_rooks := b.black_rooks &&& bnot64 (sqBB 59) ||| sqBB 56 }
        | _, _ => b
      else b
    let b := recompute_occupancy b
    { b with turn := b.turn.opposite }

end Board

/-- Index of a color as Rust `Color as usize` (White 0, Black 1). -/
def colorIdx : Color → Nat
  | Color.White => 0
  | Color.Black => 1

/-- `src/consts.rs`: `KNIGHT_MOVES` — signed knight offsets. -/
def KNIGHT_MOVES : List Int := [-17, -15, -10, -6, 6, 10, 15, 17]

/-- `src/consts.rs`: `KNIGHT_ATTACKS` — the hardcoded per-square knight
attack table. -/
def KNIGHT_ATTACKS : List Nat := [
  0x20400, 0x50800, 0xa1100, 0x142200, 0x284400, 0x508800, 0xa01000, 0x402000,
  0x2040004, 0x5080008, 0xa110011, 0x14220022, 0x28440044, 0x50880088,
  0xa0100010, 0x40200020,
  0x204000402, 0x508000805, 0xa1100110a, 0x1422002214, 0x2844004428,
  0x5088008850, 0xa0100010a0, 0x4020002040,
  0x20400040200, 0x50800080500, 0xa1100110a00, 0x142200221400,
  0x284400442800, 0x508800885000, 0xa0100010a000, 0x402000204000,
  0x2040004020000, 0x5080008050000, 0xa1100110a0000, 0x14220022140000,
  0x28440044280000, 0x50880088500000, 0xa0100010a00000, 0x40200020400000,
  0x204000402000000, 0x508000805000000, 0xa1100110a000000, 0x1422002214000000,
  0x2844004428000000, 0x5088008850000000, 0xa0100010a0000000, 0x4020002040000000,
  0x400040200000000, 0x800080500000000, 0x1100110a00000000, 0x2200221400000000,
  0x4400442800000000, 0x8800885000000000, 0x100010a000000000, 0x2000204000000000,
  0x4020000000000, 0x8050000000000, 0x110a0000000000, 0x22140000000000,
  0x44280000000000, 0x88500000000000, 0x10a000000000000, 0x20400000000000]

/-- `src/consts.rs`: `PAWN_ATTACKS` (`init_pawn_attack_masks`) — attack
set of a pawn of the given color index (White 0, Black 1) standing on
`square`. -/
def PAWN_ATTACKS (ci : Nat) (square : Nat) : Nat :=
  let rank := square / 8
  let file := square % 8
  if ci = 0 then
    (if rank < 7 ∧ 0 < file then sqBB ((rank + 1) * 8 + (file - 1)) else 0) |||
    (if rank < 7 ∧ file < 7 then sqBB ((rank + 1) * 8 + (file + 1)) else 0)
  else
    (if 0 < rank ∧ 0 < file then sqBB ((rank - 1) * 8 + (file - 1)) else 0) |||
    (if 0 < rank ∧ file < 7 then sqBB ((rank - 1) * 8 + (file + 1)) else 0)

/-- `src/consts.rs`: `KING_ATTACKS` (`generate_king_attacks`) — attack
set of a king on `square`, one step in each of the eight directions that
stays on the board. -/
def KING_ATTACKS (square : Nat) : Nat :=
  let rank : Int := square / 8
  let file : Int := square % 8
  let dirs : List (Int × Int) :=
    [(-1, -1), (0, -1), (1, -1), (-1, 0), (1, 0), (-1, 1), (0, 1), (1, 1)]
  dirs.foldl (fun mask d =>
    let nf := file + d.1
    let nr := rank + d.2
    if 0 ≤ nf ∧ nf < 8 ∧ 0 ≤ nr ∧ nr < 8 then mask ||| sqBB (nr * 8 + nf).toNat
    else mask) 0

/-- The squares of a bitboard in LSB-first order, the iteration order of
the bit-set's `into_iter` (spec: "extract and clear lowest set square").
Fuel 64 covers a `u64`. -/
def bb_squares : Nat → Nat → List Nat
  | 0, _ => []
  | fuel + 1, bb =>
    if bb = 0 then [] else tz64 bb :: bb_squares fuel (bb &&& (bb - 1))

namespace Board

/-- `src/utils.rs`: `Board::is_square_attacked` — whether `attacking_color`
attacks `sq`: pawn table of the opposite color at `sq` against attacker
pawns, knight and king tables, and the two sliding lookups against the
attacker's bishops/rooks joined with its queens. -/
def is_square_attacked (b : Board) (sq : Nat) (attacking_color : Color) : Bool :=
  let (pawns, knights, bishops, rooks, queens, king) :=
    match attacking_color with
    | Color.White => (b.white_pawns, b.white_knights, b.white_bishops,
        b.white_rooks, b.white_queens, b.white_king)
    | Color.Black => (b.black_pawns, b.black_knights, b.black_bishops,
        b.black_rooks, b.black_queens, b.black_king)
  if PAWN_ATTACKS (colorIdx attacking_color.opposite) sq &&& pawns ≠ 0 then true
  else if (KNIGHT_ATTACKS.getD sq 0) &&& knights ≠ 0 then true
  else if KING_ATTACKS sq &&& king ≠ 0 then true
  else if get_bishop_moves sq b.occupied &&& (bishops ||| queens) ≠ 0 then true
  else if get_rook_moves sq b.occupied &&& (rooks ||| queens) ≠ 0 then true
  else false

/-- `src/utils.rs`: `Board::is_king_in_check` — the argument is the
ATTACKING color; the tested king is the opposite color's, and a missing
king is reported as not in check. -/
def is_king_in_check (b : Board) (attacking_color : Color) : Bool :=
  let attacked_king :=
    match attacking_color with
    | Color.White => b.black_king
    | Color.Black => b.white_king
  if attacked_king = 0 then false
  else b.is_square_attacked (tz64 attacked_king) attacking_color

/-- The moves of one pawn in `generate_pawn_moves` (`src/moves.rs`):
single push (with the source's promotion test comparing the ORIGIN rank
to the back rank), double push from the start rank, and the two diagonal
captures.  `u8` casts of the signed square arithmetic are modelled with
`(x + 256) % 256`. -/
def pawn_moves_one (b : Board) (from_sq : Nat) : List Move :=
  let rank := sqRank from_sq
  let file := sqFile from_sq
  let (forward_dir, start_rank, promotion_rank, capture_dirs) :
      Int × Nat × Nat × List Int :=
    match b.turn with
    | Color.White => (8, 1, 7, [7, 9])
    | Color.Black => (-8, 6, 0, [-7, -9])
  let their_occupied :=
    match b.turn with
    | Color.White => b.black_occupied
    | Color.Black => b.white_occupied
  let target := (((from_sq : Int) + forward_dir + 256) % 256).toNat
  let pushes :=
    if target < 64 ∧ b.empty.testBit target then
      (if rank = promotion_rank then
        [Piece.Queen, Piece.Rook, Piece.Bishop, Piece.Knight].map (fun pp =>
          { from_sq := from_sq, to_sq := target, piece := Piece.Pawn,
            promotion := some pp, captured_piece := none,
            flags := Flags.Promotion })
      else
        [{ from_sq := from_sq, to_sq := target, piece := Piece.Pawn,
           promotion := none, captured_piece := none, flags := Flags.Normal }]) ++
      (if rank = start_rank then
        let dtarget := (((target : Int) + forward_dir + 256) % 256).toNat
        if dtarget < 64 ∧ b.empty.testBit dtarget then
          [{ from_sq := from_sq, to_sq := dtarget, piece := Piece.Pawn,
             promotion := none, captured_piece := none,
             flags := Flags.DoublePawnPush }]
        else []
      else [])
    else []
  let captures := capture_dirs.foldl (fun acc cdir =>
    let t := (((from_sq : Int) + cdir + 256) % 256).toNat
    let target_rank := t / 8
    let target_file := t % 8
    if t < 64 ∧ ((target_rank : Int) - (rank : Int)).natAbs = 1 ∧
        ((target_file : Int) - (file : Int)).natAbs = 1 then
      if their_occupied &&& sqBB t ≠ 0 then
        let captured_piece_type := (b.piece_on_square t).map (fun pc => pc.1)
        if rank = promotion_rank then
          acc ++ [Piece.Queen, Piece.Rook, Piece.Bishop, Piece.Knight].map (fun pp =>
            { from_sq := from_sq, to_sq := t, piece := Piece.Pawn,
              promotion := some pp, captured_piece := captured_piece_type,
              flags := Flags.PromotionCapture })
        else
          acc ++ [{ from_sq := from_sq, to_sq := t, piece := Piece.Pawn,
                    promotion := none, captured_piece := captured_piece_type,
                    flags := Flags.Capture }]
      else acc
    else acc) []
  pushes ++ captures

/-- The pawn loop of `generate_pawn_moves`: LSB-first over the mover's
pawns. -/
def pawn_loop (b : Board) : Nat → Nat → List Move
  | 0, _ => []
  | fuel + 1, pawns =>
    if pawns = 0 then []
    else pawn_moves_one b (tz64 pawns) ++ pawn_loop b fuel (pawns &&& (pawns - 1))

/-- `src/moves.rs`: `Board::generate_pawn_moves` — per-pawn pushes and
captures, then the en-passant candidates found through the opposite
color's pawn-attack table at the en-passant target. -/
def generate_pawn_moves (b : Board) : List Move :=
  let our_pawns :=
    match b.turn with
    | Color.White => b.white_pawns
    | Color.Black => b.black_pawns
  let ep_moves :=
    match b.en_passant_square with
    | none => []
    | some ep_sq =>
      let attackers := PAWN_ATTACKS (colorIdx b.turn.opposite) ep_sq &&& our_pawns
      (bb_squares 64 attackers).map (fun from_idx =>
        { from_sq := from_idx, to_sq := ep_sq, piece := Piece.Pawn,
          promotion := none, captured_piece := some Piece.Pawn,
          flags := Flags.EnPassant })
  pawn_loop b 64 our_pawns ++ ep_moves

/-- The moves of one knight in `generate_knight_moves` (`src/moves.rs`). -/
def knight_moves_one (b : Board) (from_sq : Nat) (our_occupied : Nat) : List Move :=
  KNIGHT_MOVES.foldl (fun acc offset =>
    let ts : Int := (from_sq : Int) + offset
    if 0 ≤ ts ∧ ts < 64 then
      let t := ts.toNat
      let rank_diff := ((from_sq / 8 : Int) - (t / 8 : Int)).natAbs
      let file_diff := ((from_sq % 8 : Int) - (t % 8 : Int)).natAbs
      if rank_diff = 1 ∧ file_diff = 2 ∨ rank_diff = 2 ∧ file_diff = 1 then
        if our_occupied &&& sqBB t = 0 then
          let captured_piece := (b.piece_on_square t).map (fun pc => pc.1)
          let flags := if captured_piece.isSome then Flags.Capture else Flags.Normal
          acc ++ [{ from_sq := from_sq, to_sq := t, piece := Piece.Knight,
                    promotion := none, captured_piece := captured_piece,
                    flags := flags }]
        else acc
      else acc
    else acc) []

/-- The knight loop of `generate_knight_moves`. -/
def knight_loop (b : Board) (our_occupied : Nat) : Nat → Nat → List Move
  | 0, _ => []
  | fuel + 1, knights =>
    if knights = 0 then []
    else knight_moves_one b (tz64 knights) our_occupied ++
      knight_loop b our_occupied fuel (knights &&& (knights - 1))

/-- `src/moves.rs`: `Board::generate_knight_moves`. -/
def generate_knight_moves (b : Board) : List Move :=
  let (knights, our_occupied) :=
    match b.turn with
    | Color.White => (b.white_knights, b.white_occupied)
    | Color.Black => (b.black_knights, b.black_occupied)
  knight_loop b our_occupied 64 knights

/-- The castling candidates of `generate_king_moves` (`src/moves.rs`)
for the king on `from_sq`: right still held, intervening squares empty,
and start/transit/end squares unattacked. -/
def king_castling_moves (b : Board) (from_sq : Nat) : List Move :=
  let opp := b.turn.opposite
  let rights := b.castling_rights
  match b.turn with
  | Color.White =>
    if from_sq = 4 then
      (if rights &&& W_KINGSIDE_RIGHTS ≠ 0 ∧ bbHas b.empty 6 ∧ bbHas b.empty 5 ∧
          ¬b.is_square_attacked 4 opp ∧ ¬b.is_square_attacked 5 opp ∧
          ¬b.is_square_attacked 6 opp then
        [{ from_sq := 4, to_sq := 6, piece := Piece.King, promotion := none,
           captured_piece := none, flags := Flags.Castling }]
      else []) ++
      (if rights &&& W_QUEENSIDE_RIGHTS ≠ 0 ∧ bbHas b.empty 2 ∧ bbHas b.empty 3 ∧
          bbHas b.empty 1 ∧ ¬b.is_square_attacked 4 opp ∧
          ¬b.is_square_attacked 3 opp ∧ ¬b.is_square_attacked 2 opp then
        [{ from_sq := 4, to_sq := 2, piece := Piece.King, promotion := none,
           captured_piece := none, flags := Flags.Castling }]
      else [])
    else []
  | Color.Black =>
    if from_sq = 60 then
      (if rights &&& B_KINGSIDE_RIGHTS ≠ 0 ∧ bbHas b.empty 62 ∧ bbHas b.empty 61 ∧
          ¬b.is_square_attacked 60 opp ∧ ¬b.is_square_attacked 61 opp ∧
          ¬b.is_square_attacked 62 opp then
        [{ from_sq := 60, to_sq := 62, piece := Piece.King, promotion := none,
           captured_piece := none, flags := Flags.Castling }]
      else []) ++
      (if rights &&& B_QUEENSIDE_RIGHTS ≠ 0 ∧ bbHas b.empty 58 ∧ bbHas b.empty 59 ∧
          bbHas b.empty 57 ∧ ¬b.is_square_attacked 60 opp ∧
          ¬b.is_square_attacked 59 opp ∧ ¬b.is_square_attacked 58 opp then
        [{ from_sq := 60, to_sq := 58, piece := Piece.King, promotion := none,
           captured_piece := none, flags := Flags.Castling }]
      else [])
    else []

/-- The king loop of `generate_king_moves` (`src/moves.rs`): per king,
ordinary king steps to unattacked squares then the castling candidates.
The source loops `while let Some(from_sq) = Square::try_index(kings
.trailing_zeros())`, which ends once `kings` is empty. -/
def king_loop (b : Board) (our_occupied : Nat) : Nat → Nat → List Move
  | 0, _ => []
  | fuel + 1, kings =>
    match sq_try_index (tz64 kings) with
    | none => []
    | some from_sq =>
      let attacks := KING_ATTACKS from_sq &&& bnot64 our_occupied
      let steps := (bb_squares 64 attacks).foldl (fun acc to_sq =>
        if b.is_square_attacked to_sq b.turn.opposite then acc
        else
          let cap := (b.piece_on_square to_sq).map (fun pc => pc.1)
          let flags := if cap.isSome then Flags.Capture else Flags.Normal
          acc ++ [{ from_sq := from_sq, to_sq := to_sq, piece := Piece.King,
                    promotion := none, captured_piece := cap, flags := flags }]) []
      steps ++ king_castling_moves b from_sq ++
        king_loop b our_occupied fuel (kings &&& (kings - 1))

/-- `src/moves.rs`: `Board::generate_king_moves`. -/
def generate_king_moves (b : Board) : List Move :=
  let (kings, our_occupied) :=
    match b.turn with
    | Color.White => (b.white_king, b.white_occupied)
    | Color.Black => (b.black_king, b.black_occupied)
  king_loop b our_occupied 64 kings

/-- The inner loop shared by the rook/bishop/queen generators
(`src/moves.rs`): walk the attack set LSB-first, skip own-color targets,
flag opponent targets as captures. -/
def slider_targets (b : Board) (p : Piece) (from_sq : Nat) (attacks : Nat) :
    List Move :=
  (bb_squares 64 attacks).foldl (fun acc target_sq =>
    let piece_data := b.piece_on_square target_sq
    match piece_data with
    | some pd =>
      if pd.2 = b.turn then acc
      else
        acc ++ [{ from_sq := from_sq, to_sq := target_sq, piece := p,
                  promotion := none, captured_piece := some pd.1,
                  flags := Flags.Capture }]
    | none =>
      acc ++ [{ from_sq := from_sq, to_sq := target_sq, piece := p,
                promotion := none, captured_piece := none,
                flags := Flags.Normal }]) []

/-- The piece loop shared by the rook/bishop/queen generators. -/
def slider_loop (b : Board) (p : Piece) (lookup : Nat → Nat → Nat) :
    Nat → Nat → List Move
  | 0, _ => []
  | fuel + 1, pieces =>
    if pieces = 0 then []
    else
      let sq := tz64 pieces
      slider_targets b p sq (lookup sq b.occupied) ++
        slider_loop b p lookup fuel (pieces &&& (pieces - 1))

/-- `src/moves.rs`: `Board::generate_rook_moves` — magic lookup against
the total occupancy per rook. -/
def generate_rook_moves (b : Board) : List Move :=
  let rooks :=
    match b.turn with
    | Color.White => b.white_rooks
    | Color.Black => b.black_rooks
  slider_loop b Piece.Rook get_rook_moves 64 rooks

/-- `src/moves.rs`: `Board::generate_bishop_moves`. -/
def generate_bishop_moves (b : Board) : List Move :=
  let bishops :=
    match b.turn with
    | Color.White => b.white_bishops
    | Color.Black => b.black_bishops
  slider_loop b Piece.Bishop get_bishop_moves 64 bishops

/-- `src/moves.rs`: `Board::generate_queen_moves`. -/
def generate_queen_moves (b : Board) : List Move :=
  let queens :=
    match b.turn with
    | Color.White => b.white_queens
    | Color.Black => b.black_queens
  slider_loop b Piece.Queen get_queen_moves 64 queens

/-- The legality filter shared by both generator entry points
(`src/moves.rs`): keep a pseudo-legal move iff applying it to a copy
does not leave the mover's king in check (`is_king_in_check` is called
with the opponent as the attacking color, so it tests the mover's own
king). -/
def legal_filter (b : Board) (moves : List Move) : List Move :=
  moves.filter (fun mv => !(b.make_move mv).is_king_in_check b.turn.opposite)

/-- `src/moves.rs`: `Board::generate_legal_moves` — pseudo-legal moves
in the order pawn, knight, rook, queen, bishop, king, then the legality
filter. -/
def generate_legal_moves (b : Board) : List Move :=
  legal_filter b
    (generate_pawn_moves b ++ generate_knight_moves b ++
     generate_rook_moves b ++ generate_queen_moves b ++
     generate_bishop_moves b ++ generate_king_moves b)

/-- `src/moves.rs`: `Board::generate_legal_moves_into` — same filter,
with the bishop moves generated before the queen moves. -/
def generate_legal_moves_into (b : Board) : List Move :=
  legal_filter b
    (generate_pawn_moves b ++ generate_knight_moves b ++
     generate_rook_moves b ++ generate_bishop_moves b ++
     generate_queen_moves b ++ generate_king_moves b)

/-- `src/utils.rs`: `Board::is_insufficient_material`. -/
def is_insufficient_material (b : Board) : Bool :=
  if b.white_pawns ≠ 0 ∨ b.black_pawns ≠ 0 then false
  else
    let white_major := popcnt64 b.white_rooks + popcnt64 b.white_queens
    let black_major := popcnt64 b.black_rooks + popcnt64 b.black_queens
    if white_major > 0 ∧ black_major > 0 then false
    else
      let white_minor := popcnt64 b.white_knights + popcnt64 b.white_bishops
      let black_minor := popcnt64 b.black_knights + popcnt64 b.black_bishops
      if white_minor = 0 ∧ black_minor = 0 then true
      else if white_minor = 1 ∧ black_minor = 0 ∧ b.white_queens = 0 ∧
          b.white_rooks = 0 then true
      else if black_minor = 1 ∧ white_minor = 0 ∧ b.black_queens = 0 ∧
          b.black_rooks = 0 then true
      else if white_minor = 1 ∧ popcnt64 b.white_bishops = 1 ∧ black_minor = 0
        then true
      else if black_minor = 1 ∧ popcnt64 b.black_bishops = 1 ∧ white_minor = 0
        then true
      else false

end Board

/-- `src/game_result.rs`: `GameResult`. -/
inductive GameResult where
  | Checkmate (c : Color)
  | Stalemate
  | DrawFiftyMove
  | DrawRepetition
  | DrawInsufficientMaterial
  | Ongoing
deriving DecidableEq, Repr

namespace Board

/-- The king square `game_result` inspects (`src/game_result.rs`): the
side to move's king bit-set passed to `next_square`. -/
def side_king_square (b : Board) : Option Nat :=
  match b.turn with
  | Color.White => next_square b.white_king
  | Color.Black => next_square b.black_king

/-- `src/game_result.rs`: `Board::game_result` — no legal moves and a
present king decide mate/stalemate; otherwise (also when the moveless
side has NO king) the fifty-move, insufficient-material and ongoing
checks run in order. -/
def game_result (b : Board) : GameResult :=
  let legal := generate_legal_moves b
  let rest :=
    if b.halfmove_clock ≥ 100 then GameResult.DrawFiftyMove
    else if b.is_insufficient_material then GameResult.DrawInsufficientMaterial
    else GameResult.Ongoing
  if legal.isEmpty then
    match side_king_square b with
    | some ksq =>
      if b.is_square_attacked ksq b.turn.opposite then GameResult.Checkmate b.turn
      else GameResult.Stalemate
    | none => rest
  else rest

end Board

/-- Outcome of `from_fen`: a parsed board, a typed validation failure
(Rust `Err(&'static str)`), or a `fatal` abort (the debug-build
arithmetic panics of the placement loop: `u8` underflow/overflow and a
shift by 64 or more). -/
inductive FenResult where
  | ok (b : Board)
  | err (msg : String)
  | fatal (msg : String)
deriving DecidableEq, Repr

/-- Rust `str::split(' ')` on a character list: split at every single
space, keeping empty segments. -/
def split_spaces : List Char → List (List Char)
  | [] => [[]]
  | c :: rest =>
    if c = ' ' then [] :: split_spaces rest
    else
      match split_spaces rest with
      | g :: gs => (c :: g) :: gs
      | [] => [[c]]

/-- The piece-placement loop of `from_fen` (`src/utils.rs`).  `rank`
starts at 7 and `'/'` decrements it (`u8` underflow aborts); a digit
advances `file`; any other character is placed at `rank * 8 + file`
after the `u8` sum and the `1u64 << square_idx` shift are checked (both
abort in a debug build when out of range), with an unknown letter
reported as an invalid piece character. -/
def parse_placement : List Char → Nat → Nat → Board → FenResult
  | [], _, _, b => FenResult.ok b
  | c :: rest, rank, file, b =>
    if c = '/' then
      if rank = 0 then FenResult.fatal "attempt to subtract with overflow"
      else parse_placement rest (rank - 1) 0 b
    else if c.isDigit then
      let file' := file + (c.toNat - 48)
      if file' > 255 then FenResult.fatal "attempt to add with overflow"
      else parse_placement rest rank file' b
    else if rank * 8 + file > 255 then
      FenResult.fatal "attempt to add with overflow"
    else
      let square_idx := rank * 8 + file
      if square_idx ≥ 64 then FenResult.fatal "attempt to shift left with overflow"
      else
        let bit := 1 <<< square_idx
        match c with
        | 'P' => parse_placement rest rank (file + 1)
            { b with white_pawns := b.white_pawns ||| bit }
        | 'N' => parse_placement rest rank (file + 1)
            { b with white_knights := b.white_knights ||| bit }
        | 'B' => parse_placement rest rank (file + 1)
            { b with white_bishops := b.white_bishops ||| bit }
        | 'R' => parse_placement rest rank (file + 1)
            { b with white_rooks := b.white_rooks ||| bit }
        | 'Q' => parse_placement rest rank (file + 1)
            { b with white_queens := b.white_queens ||| bit }
        | 'K' => parse_placement rest rank (file + 1)
            { b with white_king := b.white_king ||| bit }
        | 'p' => parse_placement rest rank (file + 1)
            { b with black_pawns := b.black_pawns ||| bit }
        | 'n' => parse_placement rest rank (file + 1)
            { b with black_knights := b.black_knights ||| bit }
        | 'b' => parse_placement rest rank (file + 1)
            { b with black_bishops := b.black_bishops ||| bit }
        | 'r' => parse_placement rest rank (file + 1)
            { b with black_rooks := b.black_rooks ||| bit }
        | 'q' => parse_placement rest rank (file + 1)
            { b with black_queens := b.black_queens ||| bit }
        | 'k' => parse_placement rest rank (file + 1)
            { b with black_king := b.black_king ||| bit }
        | _ => FenResult.err "Invalid FEN string: Invalid piece character"

/-- The castling-rights loop of `from_fen` (`src/utils.rs`): each letter
ORs its bit into the accumulator (which the caller seeds with the
board's INITIAL `0b1111`), `'-'` is skipped, anything else is an
error.  No bit is ever cleared. -/
def parse_castling : List Char → Nat → Except String Nat
  | [], acc => Except.ok acc
  | c :: rest, acc =>
    match c with
    | 'K' => parse_castling rest (acc ||| 0b0001)
    | 'Q' => parse_castling rest (acc ||| 0b0010)
    | 'k' => parse_castling rest (acc ||| 0b0100)
    | 'q' => parse_castling rest (acc ||| 0b1000)
    | '-' => parse_castling rest acc
    | _ => Except.error "Invalid FEN string: Invalid castling rights"

/-- The file-letter lookup of the en-passant field (`src/utils.rs`):
`a`-`h` map to 0-7, anything else is the en-passant error. -/
def ep_file_idx (c : Char) : Except String Nat :=
  match c with
  | 'a' => Except.ok 0
  | 'b' => Except.ok 1
  | 'c' => Except.ok 2
  | 'd' => Except.ok 3
  | 'e' => Except.ok 4
  | 'f' => Except.ok 5
  | 'g' => Except.ok 6
  | 'h' => Except.ok 7
  | _ => Except.error "Invalid FEN string: Invalid en passant square"

/-- The rank-digit lookup of the en-passant field (`src/utils.rs`):
digits `1`-`8` map to 0-7, anything else is the en-passant error. -/
def ep_rank_idx (c : Char) : Except String Nat :=
  if c.isDigit ∧ 1 ≤ c.toNat - 48 ∧ c.toNat - 48 ≤ 8
  then Except.ok (c.toNat - 48 - 1)
  else Except.error "Invalid FEN string: Invalid en passant square"

/-- The en-passant field of `from_fen` (`src/utils.rs`): `-` means no
target; otherwise exactly two characters, file `a`-`h` and rank digit
`1`-`8`, combined as `rank <<< 3 ||| file` by `Square::new`. -/
def parse_ep (cs : List Char) : Except String (Option Nat) :=
  if cs = ['-'] then Except.ok none
  else if cs.length ≠ 2 then
    Except.error "Invalid FEN string: Invalid en passant square"
  else
    match ep_file_idx (cs.getD 0 ' '), ep_rank_idx (cs.getD 1 ' ') with
    | Except.ok f, Except.ok r => Except.ok (some (r <<< 3 ||| f))
    | Except.error m, _ => Except.error m
    | _, Except.error m => Except.error m

/-- Rust `str::parse` for unsigned integers accepts one optional
leading `+` sign before the digits. -/
def strip_plus : List Char → List Char
  | '+' :: rest => rest
  | cs => cs

/-- Rust `str::parse` for an unsigned integer type with maximum value
`bound` (`u8` 255, `u16` 65535): an optional leading `+`, then at least
one decimal digit, no other characters, no overflow. -/
def parse_uint (cs : List Char) (bound : Nat) : Option Nat :=
  let ds := strip_plus cs
  if ds = [] then none
  else if ds.all Char.isDigit then
    let v := ds.foldl (fun acc c => acc * 10 + (c.toNat - 48)) 0
    if v ≤ bound then some v else none
  else none

namespace Board

/-- The board value `from_fen` starts from (`src/utils.rs`): empty piece
sets but castling rights already `0b1111`. -/
def fen_start : Board where
  white_pawns := 0
  white_knights := 0
  white_bishops := 0
  white_rooks := 0
  white_queens := 0
  white_king := 0
  black_pawns := 0
  black_knights := 0
  black_bishops := 0
  black_rooks := 0
  black_queens := 0
  black_king := 0
  white_occupied := 0
  black_occupied := 0
  occupied := 0
  empty := 0
  turn := Color.White
  castling_rights := 0b1111
  en_passant_square := none
  halfmove_clock := 0
  fullmove_number := 1
  zobrist_hash := 0
  history := []

/-- `src/utils.rs`: `Board::from_fen` — six space-separated fields;
placement, active color, castling rights, en-passant target and the two
clocks parsed in order, each failure surfacing its own message. -/
def from_fen (fen : String) : FenResult :=
  let parts := split_spaces fen.data
  if parts.length ≠ 6 then FenResult.err "FEN must have 6 parts"
  else
    let piece_placement := parts.getD 0 []
    let active_color := parts.getD 1 []
    let castling_rights_str := parts.getD 2 []
    let en_passant_sq_str := parts.getD 3 []
    let halfmove_clock_str := parts.getD 4 []
    let fullmove_number_str := parts.getD 5 []
    match parse_placement piece_placement 7 0 fen_start with
    | FenResult.err m => FenResult.err m
    | FenResult.fatal m => FenResult.fatal m
    | FenResult.ok board =>
      let board := recompute_occupancy board
      let turn : Except String Color :=
        if active_color = ['w'] then Except.ok Color.White
        else if active_color = ['b'] then Except.ok Color.Black
        else Except.error "Invalid FEN string: Invalid active color"
      match turn with
      | Except.error m => FenResult.err m
      | Except.ok turn =>
        let board := { board with turn := turn }
        match parse_castling castling_rights_str board.castling_rights with
        | Except.error m => FenResult.err m
        | Except.ok rights =>
          let board := { board with castling_rights := rights }
          match parse_ep en_passant_sq_str with
          | Except.error m => FenResult.err m
          | Except.ok ep =>
            let board := { board with en_passant_square := ep }
            match parse_uint halfmove_clock_str 255 with
            | none => FenResult.err "Invalid FEN string: Invalid halfmove clock"
            | some hc =>
              match parse_uint fullmove_number_str 65535 with
              | none => FenResult.err "Invalid FEN string: Invalid fullmove number"
              | some fm =>
                FenResult.ok { board with halfmove_clock := hc, fullmove_number := fm }

end Board

/-! Concrete positions used by the claim theorems. -/

/-- The board of a successful parse (junk value otherwise; every use
below is on a FEN the surrounding theorem shows parses successfully). -/
def board_of : FenResult → Board
  | FenResult.ok b => b
  | _ => Board.fen_start

/-- The en-passant position of the repository's own
`test_en_passant_capture` (reachable by 1. e4 d5 2. e5 f5). -/
def fen_c1 : String := "rnbqkbnr/ppp1p1pp/8/3pPp2/8/8/PPPP1PPP/RNBQKBNR w KQkq f6 0 3"

def c1_board : Board := board_of (Board.from_fen fen_c1)

/-- The en-passant capture e5xf6 (squares 36 to 45). -/
def c1_move : Move :=
  { from_sq := 36, to_sq := 45, piece := Piece.Pawn,
    captured_piece := some Piece.Pawn, promotion := none,
    flags := Flags.EnPassant }

/-- White pawn on e7 about to push to the back rank; kings on a8/a1. -/
def fen_c2 : String := "k7/4P3/8/8/8/8/8/K7 w - - 0 1"

def c2_board : Board := board_of (Board.from_fen fen_c2)

/-- The knight development move Ng1-f3 (squares 6 to 21), neither a pawn
move nor a capture. -/
def c3_move : Move :=
  { from_sq := 6, to_sq := 21, piece := Piece.Knight,
    captured_piece := none, promotion := none, flags := Flags.Normal }

def fen_kk : String := "k7/8/8/8/8/8/8/K7 w - - 0 1"
def fen_kbk : String := "k7/8/8/8/8/8/8/KB6 w - - 0 1"
def fen_knk : String := "k7/8/8/8/8/8/8/KN6 w - - 0 1"
def fen_krk : String := "k7/8/8/8/8/8/8/KR6 w - - 0 1"

def kk_board : Board := board_of (Board.from_fen fen_kk)
def kbk_board : Board := board_of (Board.from_fen fen_kbk)
def knk_board : Board := board_of (Board.from_fen fen_knk)
def krk_board : Board := board_of (Board.from_fen fen_krk)

/-- Claim C1.  The claim states that `unmake_move` after `make_move`
restores every field bit-for-bit for every legal move of a reachable
position.  The code violates this on en-passant captures: the undo
snapshot records the captured pawn at `mv.to`, while `make_move` removed
it from the square one rank behind, so `unmake_move` restores the pawn
on the wrong square.  This theorem evaluates the code at the position of
the repository's own en-passant test: e5xf6 is a generated legal move,
yet the round trip leaves the black pawn bit-set different from the
original (the pawn reappears on f6 instead of f5). -/
theorem c1_en_passant_round_trip_fails :
    Board.from_fen fen_c1 = FenResult.ok c1_board ∧
    c1_move ∈ c1_board.generate_legal_moves ∧
    ((c1_board.make_move c1_move).unmake_move c1_move).black_pawns ≠
      c1_board.black_pawns ∧
    (c1_board.make_move c1_move).unmake_move c1_move ≠ c1_board := by
  refine ⟨by decide, by decide, by decide, ?_⟩
  intro h
  exact absurd (congrArg Board.black_pawns h) (by decide)

/-- Claim C2.  The claim states that a pawn push or capture landing on
the back rank yields four promotion moves.  The generator compares the
ORIGIN rank with the back rank (`rank == promotion_rank` where `rank` is
the rank of `from`), so a white pawn on e7 pushing to e8 produces one
ordinary non-promoting move and no promotions: the generated list for
this position is exactly the single `Normal` move e7-e8 with
`promotion := none`. -/
theorem c2_promotion_moves_not_generated :
    Board.from_fen fen_c2 = FenResult.ok c2_board ∧
    c2_board.generate_pawn_moves =
      [{ from_sq := 52, to_sq := 60, piece := Piece.Pawn,
         captured_piece := none, promotion := none, flags := Flags.Normal }] := by
  exact ⟨by decide, by decide⟩

/-- Claim C3.  The claim states the halfmove clock becomes `previous + 1`
on a move that is neither a pawn move nor a capture.  The code tests
`self.occupied & to_bit` AFTER recomputing the occupancy, and the moved
piece now occupies `to`, so the clock is reset to 0 on every move:
after Ng1-f3 from the initial position the clock is 0, not 0 + 1. -/
theorem c3_halfmove_clock_not_incremented :
    (Board.default.make_move c3_move).halfmove_clock = 0 ∧
    (Board.default.make_move c3_move).halfmove_clock ≠
      Board.default.halfmove_clock + 1 := by
  exact ⟨by decide, by decide⟩

/-- Claim C5.  Every move kept by either legality filter leaves the
mover's own king unattacked: the filter keeps a pseudo-legal move only
when `is_king_in_check`, called with the opponent as the attacking
color (and hence testing the mover's king), is false on the position
after the move. -/
theorem c5_legal_moves_leave_own_king_safe (b : Board) (mv : Move) :
    (mv ∈ b.generate_legal_moves →
      (b.make_move mv).is_king_in_check b.turn.opposite = false) ∧
    (mv ∈ b.generate_legal_moves_into →
      (b.make_move mv).is_king_in_check b.turn.opposite = false) := by
  constructor
  · intro h
    simp only [Board.generate_legal_moves, Board.legal_filter] at h
    rw [List.mem_filter] at h
    simpa using h.2
  · intro h
    simp only [Board.generate_legal_moves_into, Board.legal_filter] at h
    rw [List.mem_filter] at h
    simpa using h.2

def c5w_move : Move :=
  { from_sq := 0, to_sq := 1, piece := Piece.King,
    captured_piece := none, promotion := none, flags := Flags.Normal }

/-- Witness for C5: on the two-kings position, the generated king move
Ka1-b1 indeed leaves White's king out of check. -/
theorem c5_legal_moves_leave_own_king_safe_witness :
    c5w_move ∈ kk_board.generate_legal_moves ∧
    (kk_board.make_move c5w_move).is_king_in_check kk_board.turn.opposite
      = false := by
  have hmem : c5w_move ∈ kk_board.generate_legal_moves := by decide
  exact ⟨hmem, (c5_legal_moves_leave_own_king_safe kk_board c5w_move).1 hmem⟩

/-- Black to move with no black piece at all (and in particular no black
king); White has the lone king on a1. -/
def fen_c6 : String := "8/8/8/8/8/8/8/K7 b - - 0 1"

def c6_board : Board := board_of (Board.from_fen fen_c6)

/-- Counterexample to claim C6 as stated: the side to move has zero
legal moves, so by the claim `game_result` must return `Checkmate` or
`Stalemate`; but the side to move has no king, the code's
`if let Some(king_sq)` falls through, and the result is
`DrawInsufficientMaterial`. -/
theorem c6_kingless_side_counterexample :
    Board.from_fen fen_c6 = FenResult.ok c6_board ∧
    c6_board.generate_legal_moves = [] ∧
    c6_board.black_king = 0 ∧
    c6_board.game_result = GameResult.DrawInsufficientMaterial := by
  exact ⟨by decide, by decide, by decide, by decide⟩

/-- Claim C6, amended: the claimed decision order holds whenever the
moveless side has a king on the board; when it has none (or when legal
moves exist) the fifty-move, insufficient-material and ongoing checks
decide in order. -/
theorem c6_game_result_decision_order (b : Board) :
    (b.generate_legal_moves = [] →
      ∀ k, b.side_king_square = some k →
        b.game_result =
          if b.is_square_attacked k b.turn.opposite then GameResult.Checkmate b.turn
          else GameResult.Stalemate) ∧
    (b.generate_legal_moves ≠ [] ∨ b.side_king_square = none →
      b.game_result =
        if b.halfmove_clock ≥ 100 then GameResult.DrawFiftyMove
        else if b.is_insufficient_material then GameResult.DrawInsufficientMaterial
        else GameResult.Ongoing) := by
  constructor
  · intro hleg k hk
    unfold Board.game_result
    simp [hleg, hk]
  · intro h
    unfold Board.game_result
    rcases h with h | h
    · simp [h]
    · by_cases hleg : b.generate_legal_moves = []
      · simp [hleg, h]
      · simp [hleg]

/-- Witness for C6: the two-kings position has legal moves, clock 0 and
insufficient material, so the second branch yields the material draw. -/
theorem c6_game_result_decision_order_witness :
    kk_board.game_result = GameResult.DrawInsufficientMaterial := by
  have h := (c6_game_result_decision_order kk_board).2 (Or.inl (by decide))
  rw [h]; decide

/-- Kings on their home files but White's king on e2, not e1. -/
def fen_c7 : String := "4k3/8/8/8/8/8/4K3/8 w - - 0 1"

def c7_board : Board := board_of (Board.from_fen fen_c7)

/-- The king step Ke2-e3 (squares 12 to 20). -/
def c7_cmove : Move :=
  { from_sq := 12, to_sq := 20, piece := Piece.King,
    captured_piece := none, promotion := none, flags := Flags.Normal }

/-- Counterexample to claim C7 as stated: a legal King move played from
e2 (not the home square) leaves every castling-rights bit set, so
`make_move` does NOT revoke the moving color's rights "regardless of the
king's origin square". -/
theorem c7_king_move_counterexample :
    Board.from_fen fen_c7 = FenResult.ok c7_board ∧
    c7_cmove.piece = Piece.King ∧
    c7_cmove ∈ c7_board.generate_legal_moves ∧
    (c7_board.make_move c7_cmove).castling_rights = c7_board.castling_rights ∧
    (c7_board.make_move c7_cmove).castling_rights &&&
      (W_KINGSIDE_RIGHTS ||| W_QUEENSIDE_RIGHTS) ≠ 0 := by
  exact ⟨by decide, by decide, by decide, by decide, by decide⟩

theorem add_piece_rights (b : Board) (sq : Nat) (p : Piece) (c : Color) :
    (b.add_piece sq p c).castling_rights = b.castling_rights := by
  unfold Board.add_piece
  cases c <;> cases p <;> rfl

theorem delete_piece_rights (b : Board) (sq : Nat) :
    (b.delete_piece sq).castling_rights = b.castling_rights := by
  unfold Board.delete_piece
  rcases h : b.piece_on_square sq with _ | ⟨p, c⟩
  · rfl
  · cases c <;> cases p <;> rfl

theorem make_move_pieces_rights (b : Board) (mv : Move) :
    (b.make_move_pieces mv).castling_rights = b.castling_rights := by
  unfold Board.make_move_pieces
  cases b.turn <;> rcases mv.promotion with _ | pp <;> (try cases pp) <;>
    cases mv.piece <;>
    simp [Board.recompute_occupancy, apply_ite Board.castling_rights]

theorem castling_rook_relocation_rights (b : Board) (mv : Move) :
    (Board.castling_rook_relocation b mv).castling_rights = b.castling_rights := by
  unfold Board.castling_rook_relocation
  split
  · split
    · split <;> rw [add_piece_rights, delete_piece_rights]
    · split
      · split <;> rw [add_piece_rights, delete_piece_rights]
      · rfl
  · rfl

theorem en_passant_capture_rights (b : Board) (mv : Move) :
    (Board.en_passant_capture b mv).castling_rights = b.castling_rights := by
  unfold Board.en_passant_capture
  split
  · dsimp only
    rcases h : sq_try_index (if b.turn = Color.White then (mv.to_sq + 256 - 8) % 256
        else (mv.to_sq + 8) % 256) with _ | sq <;>
      simp [h, delete_piece_rights]
  · rfl

/-- The castling-rights field after `make_move` is exactly the
composition of the three rights updates in source order. -/
theorem make_move_rights (b : Board) (mv : Move) :
    (b.make_move mv).castling_rights =
      Board.rights_after_rook
        (Board.rights_after_king
          (Board.rights_after_castling_flag b.castling_rights mv) mv) mv := by
  unfold Board.make_move
  rw [en_passant_capture_rights]
  simp only [make_move_pieces_rights, castling_rook_relocation_rights,
    apply_ite Board.castling_rights]
  simp

theorem land_merge (r a b : Nat) : r &&& a &&& b = r &&& (a &&& b) :=
  Nat.land_assoc r a b

/-- Claim C7, amended: `make_move` on a King move clears both White
rights (mask `& 0b11111100`) exactly when the king moves from E1
(square 4), both Black rights (mask `& 0b11110011`) exactly when it
moves from E8 (square 60), and leaves the castling-rights mask
unchanged for a King move from any other origin square. -/
theorem c7_king_move_castling_rights (b : Board) (mv : Move)
    (h : mv.piece = Piece.King) :
    (b.make_move mv).castling_rights =
      if mv.from_sq = 4 then b.castling_rights &&& 0b11111100
      else if mv.from_sq = 60 then b.castling_rights &&& 0b11110011
      else b.castling_rights := by
  rw [make_move_rights]
  unfold Board.rights_after_rook Board.rights_after_king
    Board.rights_after_castling_flag
  have hnr : ¬mv.piece = Piece.Rook := by rw [h]; intro hc; cases hc
  rw [if_neg hnr, if_pos h]
  by_cases h4 : mv.from_sq = 4
  · by_cases hfl : mv.flags = Flags.Castling <;>
      · simp only [hfl, h4]
        norm_num
        simp only [land_merge]
        congr 1
  · by_cases h60 : mv.from_sq = 60
    · by_cases hfl : mv.flags = Flags.Castling <;>
        · simp only [hfl, h4, h60]
          norm_num
          simp only [land_merge]
          congr 1
    · by_cases hfl : mv.flags = Flags.Castling <;>
        simp only [hfl, h4, h60, if_true, ite_true, if_false, ite_false,
          if_neg, if_pos]

def c7w_move : Move :=
  { from_sq := 4, to_sq := 12, piece := Piece.King,
    captured_piece := none, promotion := none, flags := Flags.Normal }

/-- Witness for C7: a king move from E1 on the initial board leaves
rights `0b1111 &&& 0b11111100 = 0b1100`. -/
theorem c7_king_move_castling_rights_witness :
    (Board.default.make_move c7w_move).castling_rights = 12 := by
  have h := c7_king_move_castling_rights Board.default c7w_move rfl
  rw [h]; decide

/-- Claim C4.  The claim states King+Rook vs King is NOT classified as an
insufficient-material draw and that the test first requires both sides
to have zero rooks and queens combined.  The code only returns early
when BOTH sides own a rook or queen, so with king and rook against a
bare king every minor-piece count is zero and the function returns
`true`: King+Rook vs King IS classified as a draw.  The three genuine
draws of the claim do hold. -/
theorem c4_insufficient_material_results :
    kk_board.is_insufficient_material = true ∧
    kbk_board.is_insufficient_material = true ∧
    knk_board.is_insufficient_material = true ∧
    krk_board.is_insufficient_material = true := by
  exact ⟨by decide, by decide, by decide, by decide⟩

/-! Claim C8: malformed FEN inputs.  The field-count failure is proved
for every string; the later stages are proved for every six-field
string whose earlier fields parse, with the malformation stated
structurally on the offending field.  The placement stage is the
exception: its scan can abort (a debug-build shift-overflow panic,
`FenResult.fatal` here) before an invalid piece character is examined,
so for that stage the theorem characterises every typed failure and
the counterexample exhibits the abort. -/

/-- Every typed failure of the placement scan carries the
invalid-piece-character message (the other early exits are the
modelled arithmetic aborts, which are `fatal`, not `err`). -/
theorem parse_placement_err_msg :
    ∀ (cs : List Char) (rank file : Nat) (b : Board) (m : String),
      parse_placement cs rank file b = FenResult.err m →
      m = "Invalid FEN string: Invalid piece character" := by
  intro cs
  induction cs with
  | nil => intro rank file b m h; cases h
  | cons c rest ih =>
    intro rank file b m h
    unfold parse_placement at h
    dsimp only at h
    repeat' split at h
    all_goals first | exact ih _ _ _ _ h | (cases h <;> rfl)

/-- The placement scan never touches the castling-rights field. -/
theorem parse_placement_rights_eq :
    ∀ (cs : List Char) (rank file : Nat) (b r : Board),
      parse_placement cs rank file b = FenResult.ok r →
      r.castling_rights = b.castling_rights := by
  intro cs
  induction cs with
  | nil => intro rank file b r h; cases h; rfl
  | cons c rest ih =>
    intro rank file b r h
    unfold parse_placement at h
    dsimp only at h
    repeat' split at h
    all_goals first | cases h | exact (ih _ _ _ _ h).trans rfl

/-- Recomputing the occupancy sets leaves the castling-rights field
unchanged. -/
theorem recompute_occupancy_rights (b : Board) :
    (Board.recompute_occupancy b).castling_rights = b.castling_rights := rfl

/-- A castling field containing any character other than `K`, `Q`, `k`,
`q`, `-` makes the castling loop fail, from any accumulator. -/
theorem parse_castling_err_of_bad_char :
    ∀ (cs : List Char) (acc : Nat) (c : Char), c ∈ cs →
      c ≠ 'K' → c ≠ 'Q' → c ≠ 'k' → c ≠ 'q' → c ≠ '-' →
      parse_castling cs acc =
        Except.error "Invalid FEN string: Invalid castling rights" := by
  intro cs
  induction cs with
  | nil => intro acc c hmem; cases hmem
  | cons d rest ih =>
    intro acc c hmem h1 h2 h3 h4 h5
    rcases List.mem_cons.mp hmem with rfl | hmem'
    · unfold parse_castling
      split <;> first
        | rfl
        | exact absurd rfl (by assumption)
    · unfold parse_castling
      split <;> first
        | rfl
        | exact ih _ _ hmem' h1 h2 h3 h4 h5

/-- A character that is no file letter `a`-`h` fails the en-passant
file lookup. -/
theorem ep_file_idx_err_of_bad_char (c : Char)
    (h1 : c ≠ 'a') (h2 : c ≠ 'b') (h3 : c ≠ 'c') (h4 : c ≠ 'd')
    (h5 : c ≠ 'e') (h6 : c ≠ 'f') (h7 : c ≠ 'g') (h8 : c ≠ 'h') :
    ep_file_idx c = Except.error "Invalid FEN string: Invalid en passant square" := by
  unfold ep_file_idx
  split <;> first
    | rfl
    | exact absurd rfl (by assumption)

/-- The en-passant file lookup fails only with the en-passant message. -/
theorem ep_file_idx_err_msg (c : Char) (m : String)
    (h : ep_file_idx c = Except.error m) :
    m = "Invalid FEN string: Invalid en passant square" := by
  unfold ep_file_idx at h
  split at h <;> (cases h <;> rfl)

/-- An en-passant field other than `-` that is not exactly a valid file
letter followed by a valid rank digit fails with the en-passant
message. -/
theorem parse_ep_err_of_malformed (cs : List Char)
    (hne : cs ≠ ['-'])
    (hbad : cs.length ≠ 2 ∨
      ep_file_idx (cs.getD 0 ' ') =
        Except.error "Invalid FEN string: Invalid en passant square" ∨
      ep_rank_idx (cs.getD 1 ' ') =
        Except.error "Invalid FEN string: Invalid en passant square") :
    parse_ep cs = Except.error "Invalid FEN string: Invalid en passant square" := by
  unfold parse_ep
  rw [if_neg hne]
  by_cases hlen : cs.length ≠ 2
  · rw [if_pos hlen]
  · rw [if_neg hlen]
    rcases hbad with hbad | hbad | hbad
    · exact absurd hbad hlen
    · rw [hbad]
      rcases hr : ep_rank_idx (cs.getD 1 ' ') with m2 | v2 <;> rfl
    · rcases hf : ep_file_idx (cs.getD 0 ' ') with m | v
      · rw [ep_file_idx_err_msg _ _ hf]
        rcases hr : ep_rank_idx (cs.getD 1 ' ') with m2 | v2 <;> rfl
      · rw [hbad]

/-- A clock field containing a non-digit after the optional leading `+`
does not parse as an unsigned integer, whatever the bound. -/
theorem parse_uint_none_of_nondigit (cs : List Char) (bound : Nat) (c : Char)
    (hmem : c ∈ strip_plus cs) (hnd : c.isDigit = false) :
    parse_uint cs bound = none := by
  unfold parse_uint
  dsimp only
  have hds : ¬(strip_plus cs = []) := by
    intro hnil; rw [hnil] at hmem; cases hmem
  have hall : ¬((strip_plus cs).all Char.isDigit = true) := by
    intro hall
    have hc := List.all_eq_true.mp hall c hmem
    rw [hnd] at hc
    cases hc
  rw [if_neg hds, if_neg hall]

/-- A FEN whose placement field is malformed by an invalid piece
character standing past the eighth file of a rank (here `X` as a ninth
entry of the first rank): the scan reaches file 8 of rank 7, computes
square index 64, and `1u64 << 64` overflows before the character is
matched. -/
def fen_abort_piece : String :=
  "rnbqkbnrX/pppppppp/8/8/8/8/PPPPPPPP/RNBQKBNR w KQkq - 0 1"

/-- Counterexample to claim C8 as stated: this FEN is malformed by an
invalid piece character (`X`), so by the claim `from_fen` must return
the named invalid-piece-character validation failure and never abort;
instead the placement scan aborts with a shift overflow (a debug-build
panic, modelled as `FenResult.fatal`) before the piece character is
examined, and no typed failure is returned. -/
theorem c8_invalid_piece_abort_counterexample :
    ('X' ∈ (split_spaces fen_abort_piece.data).getD 0 []) ∧
    Board.from_fen fen_abort_piece =
      FenResult.fatal "attempt to shift left with overflow" := by
  exact ⟨by decide, by decide⟩

/-- Claim C8, amended.  For every string whose space-split is not six
fields, `from_fen` fails with the field-count message.  On every
six-field string: a placement scan that fails does so only with the
invalid-piece-character message, which `from_fen` surfaces verbatim;
once the placement parses, an active-color token other than `w`/`b`
yields the active-color failure; then a castling field containing any
character outside `KQkq-` yields the castling failure; then an
en-passant field other than `-` that is not a valid file letter
followed by a valid rank digit yields the en-passant failure; then a
halfmove (fullmove) field that does not parse as a `u8` (`u16`)
numeral -- in particular any field with a non-digit after the optional
sign -- yields its clock failure.  The seven messages are pairwise
distinct, and in each case the result is `err`, never a parsed board.
(The original claim's "never aborts" fails at the placement stage; see
the counterexample.) -/
theorem c8_fen_malformed_failures :
    (∀ s : String, (split_spaces s.data).length ≠ 6 →
      Board.from_fen s = FenResult.err "FEN must have 6 parts") ∧
    (∀ (cs : List Char) (rank file : Nat) (b : Board) (m : String),
      parse_placement cs rank file b = FenResult.err m →
      m = "Invalid FEN string: Invalid piece character") ∧
    (∀ (s : String) (m : String),
      (split_spaces s.data).length = 6 →
      parse_placement ((split_spaces s.data).getD 0 []) 7 0 Board.fen_start =
        FenResult.err m →
      Board.from_fen s = FenResult.err m) ∧
    (∀ (s : String) (b : Board),
      (split_spaces s.data).length = 6 →
      parse_placement ((split_spaces s.data).getD 0 []) 7 0 Board.fen_start =
        FenResult.ok b →
      (split_spaces s.data).getD 1 [] ≠ ['w'] →
      (split_spaces s.data).getD 1 [] ≠ ['b'] →
      Board.from_fen s =
        FenResult.err "Invalid FEN string: Invalid active color") ∧
    (∀ (s : String) (b : Board) (c : Char),
      (split_spaces s.data).length = 6 →
      parse_placement ((split_spaces s.data).getD 0 []) 7 0 Board.fen_start =
        FenResult.ok b →
      ((split_spaces s.data).getD 1 [] = ['w'] ∨
        (split_spaces s.data).getD 1 [] = ['b']) →
      c ∈ (split_spaces s.data).getD 2 [] →
      c ≠ 'K' → c ≠ 'Q' → c ≠ 'k' → c ≠ 'q' → c ≠ '-' →
      Board.from_fen s =
        FenResult.err "Invalid FEN string: Invalid castling rights") ∧
    (∀ (s : String) (b : Board) (r : Nat),
      (split_spaces s.data).length = 6 →
      parse_placement ((split_spaces s.data).getD 0 []) 7 0 Board.fen_start =
        FenResult.ok b →
      ((split_spaces s.data).getD 1 [] = ['w'] ∨
        (split_spaces s.data).getD 1 [] = ['b']) →
      parse_castling ((split_spaces s.data).getD 2 []) 15 = Except.ok r →
      (split_spaces s.data).getD 3 [] ≠ ['-'] →
      (((split_spaces s.data).getD 3 []).length ≠ 2 ∨
        ep_file_idx (((split_spaces s.data).getD 3 []).getD 0 ' ') =
          Except.error "Invalid FEN string: Invalid en passant square" ∨
        ep_rank_idx (((split_spaces s.data).getD 3 []).getD 1 ' ') =
          Except.error "Invalid FEN string: Invalid en passant square") →
      Board.from_fen s =
        FenResult.err "Invalid FEN string: Invalid en passant square") ∧
    (∀ (s : String) (b : Board) (r : Nat) (ep : Option Nat),
      (split_spaces s.data).length = 6 →
      parse_placement ((split_spaces s.data).getD 0 []) 7 0 Board.fen_start =
        FenResult.ok b →
      ((split_spaces s.data).getD 1 [] = ['w'] ∨
        (split_spaces s.data).getD 1 [] = ['b']) →
      parse_castling ((split_spaces s.data).getD 2 []) 15 = Except.ok r →
      parse_ep ((split_spaces s.data).getD 3 []) = Except.ok ep →
      parse_uint ((split_spaces s.data).getD 4 []) 255 = none →
      Board.from_fen s =
        FenResult.err "Invalid FEN string: Invalid halfmove clock") ∧
    (∀ (s : String) (b : Board) (r : Nat) (ep : Option Nat) (hc : Nat),
      (split_spaces s.data).length = 6 →
      parse_placement ((split_spaces s.data).getD 0 []) 7 0 Board.fen_start =
        FenResult.ok b →
      ((split_spaces s.data).getD 1 [] = ['w'] ∨
        (split_spaces s.data).getD 1 [] = ['b']) →
      parse_castling ((split_spaces s.data).getD 2 []) 15 = Except.ok r →
      parse_ep ((split_spaces s.data).getD 3 []) = Except.ok ep →
      parse_uint ((split_spaces s.data).getD 4 []) 255 = some hc →
      parse_uint ((split_spaces s.data).getD 5 []) 65535 = none →
      Board.from_fen s =
        FenResult.err "Invalid FEN string: Invalid fullmove number") ∧
    (∀ (cs : List Char) (bound : Nat) (c : Char),
      c ∈ strip_plus cs → c.isDigit = false →
      parse_uint cs bound = none) ∧
    (∀ c : Char, c ≠ 'a' → c ≠ 'b' → c ≠ 'c' → c ≠ 'd' →
      c ≠ 'e' → c ≠ 'f' → c ≠ 'g' → c ≠ 'h' →
      ep_file_idx c =
        Except.error "Invalid FEN string: Invalid en passant square") ∧
    (∀ c : Char, ¬(c.isDigit = true ∧ 1 ≤ c.toNat - 48 ∧ c.toNat - 48 ≤ 8) →
      ep_rank_idx c =
        Except.error "Invalid FEN string: Invalid en passant square") ∧
    ["FEN must have 6 parts", "Invalid FEN string: Invalid piece character",
     "Invalid FEN string: Invalid active color",
     "Invalid FEN string: Invalid castling rights",
     "Invalid FEN string: Invalid en passant square",
     "Invalid FEN string: Invalid halfmove clock",
     "Invalid FEN string: Invalid fullmove number"].Pairwise (· ≠ ·) := by
  refine ⟨?_, parse_placement_err_msg, ?_, ?_, ?_, ?_, ?_, ?_,
    parse_uint_none_of_nondigit, ep_file_idx_err_of_bad_char, ?_, by decide⟩
  · intro s h
    unfold Board.from_fen
    rw [if_pos h]
  · intro s m hlen hp
    unfold Board.from_fen
    dsimp only
    rw [if_neg (by simp [hlen]), hp]
  · intro s b hlen hp hw hb
    unfold Board.from_fen
    dsimp only
    rw [if_neg (by simp [hlen]), hp]
    dsimp only
    rw [if_neg hw, if_neg hb]
  · intro s b c hlen hp hcol hmem h1 h2 h3 h4 h5
    unfold Board.from_fen
    dsimp only
    rw [if_neg (by simp [hlen]), hp]
    dsimp only
    rcases hcol with hcol | hcol
    · rw [if_pos hcol]
      dsimp only
      rw [parse_castling_err_of_bad_char _ _ c hmem h1 h2 h3 h4 h5]
    · rw [if_neg (by rw [hcol]; decide), if_pos hcol]
      dsimp only
      rw [parse_castling_err_of_bad_char _ _ c hmem h1 h2 h3 h4 h5]
  · intro s b r hlen hp hcol hcast hne hbad
    have h15 : b.castling_rights = 15 :=
      (parse_placement_rights_eq _ _ _ _ _ hp).trans rfl
    unfold Board.from_fen
    dsimp only
    rw [if_neg (by simp [hlen]), hp]
    dsimp only
    rcases hcol with hcol | hcol
    · rw [if_pos hcol]
      dsimp only
      rw [recompute_occupancy_rights, h15, hcast]
      dsimp only
      rw [parse_ep_err_of_malformed _ hne hbad]
    · rw [if_neg (by rw [hcol]; decide), if_pos hcol]
      dsimp only
      rw [recompute_occupancy_rights, h15, hcast]
      dsimp only
      rw [parse_ep_err_of_malformed _ hne hbad]
  · intro s b r ep hlen hp hcol hcast hep hhc
    have h15 : b.castling_rights = 15 :=
      (parse_placement_rights_eq _ _ _ _ _ hp).trans rfl
    unfold Board.from_fen
    dsimp only
    rw [if_neg (by simp [hlen]), hp]
    dsimp only
    rcases hcol with hcol | hcol
    · rw [if_pos hcol]
      dsimp only
      rw [recompute_occupancy_rights, h15, hcast]
      dsimp only
      rw [hep]
      dsimp only
      rw [hhc]
    · rw [if_neg (by rw [hcol]; decide), if_pos hcol]
      dsimp only
      rw [recompute_occupancy_rights, h15, hcast]
      dsimp only
      rw [hep]
      dsimp only
      rw [hhc]
  · intro s b r ep hc hlen hp hcol hcast hep hhc hfm
    have h15 : b.castling_rights = 15 :=
      (parse_placement_rights_eq _ _ _ _ _ hp).trans rfl
    unfold Board.from_fen
    dsimp only
    rw [if_neg (by simp [hlen]), hp]
    dsimp only
    rcases hcol with hcol | hcol
    · rw [if_pos hcol]
      dsimp only
      rw [recompute_occupancy_rights, h15, hcast]
      dsimp only
      rw [hep]
      dsimp only
      rw [hhc]
      dsimp only
      rw [hfm]
    · rw [if_neg (by rw [hcol]; decide), if_pos hcol]
      dsimp only
      rw [recompute_occupancy_rights, h15, hcast]
      dsimp only
      rw [hep]
      dsimp only
      rw [hhc]
      dsimp only
      rw [hfm]
  · intro c h
    unfold ep_rank_idx
    rw [if_neg h]

/-- Witness for C8: each universally quantified stage instantiated on a
concrete malformed FEN of its category, every hypothesis discharged by
evaluation. -/
theorem c8_fen_malformed_failures_witness :
    Board.from_fen "x" = FenResult.err "FEN must have 6 parts" ∧
    Board.from_fen "rnbqkbnr/pppppppp/8/8/8/8/PPPPPPPP/RNBQKBNX w KQkq - 0 1" =
      FenResult.err "Invalid FEN string: Invalid piece character" ∧
    Board.from_fen "8/8/8/8/8/8/8/8 x KQkq - 0 1" =
      FenResult.err "Invalid FEN string: Invalid active color" ∧
    Board.from_fen "8/8/8/8/8/8/8/8 w Xkq - 0 1" =
      FenResult.err "Invalid FEN string: Invalid castling rights" ∧
    Board.from_fen "8/8/8/8/8/8/8/8 w KQkq e9 0 1" =
      FenResult.err "Invalid FEN string: Invalid en passant square" ∧
    Board.from_fen "8/8/8/8/8/8/8/8 w KQkq - z 1" =
      FenResult.err "Invalid FEN string: Invalid halfmove clock" ∧
    Board.from_fen "8/8/8/8/8/8/8/8 w KQkq - 0 z" =
      FenResult.err "Invalid FEN string: Invalid fullmove number" :=
  ⟨c8_fen_malformed_failures.1 "x" (by decide),
   c8_fen_malformed_failures.2.2.1
     "rnbqkbnr/pppppppp/8/8/8/8/PPPPPPPP/RNBQKBNX w KQkq - 0 1"
     "Invalid FEN string: Invalid piece character" (by decide) (by decide),
   c8_fen_malformed_failures.2.2.2.1
     "8/8/8/8/8/8/8/8 x KQkq - 0 1" Board.fen_start
     (by decide) (by decide) (by decide) (by decide),
   c8_fen_malformed_failures.2.2.2.2.1
     "8/8/8/8/8/8/8/8 w Xkq - 0 1" Board.fen_start 'X'
     (by decide) (by decide) (by decide) (by decide)
     (by decide) (by decide) (by decide) (by decide) (by decide),
   c8_fen_malformed_failures.2.2.2.2.2.1
     "8/8/8/8/8/8/8/8 w KQkq e9 0 1" Board.fen_start 15
     (by decide) (by decide) (by decide) rfl (by decide) (Or.inr (Or.inr rfl)),
   c8_fen_malformed_failures.2.2.2.2.2.2.1
     "8/8/8/8/8/8/8/8 w KQkq - z 1" Board.fen_start 15 none
     (by decide) (by decide) (by decide) rfl rfl (by decide),
   c8_fen_malformed_failures.2.2.2.2.2.2.2.1
     "8/8/8/8/8/8/8/8 w KQkq - 0 z" Board.fen_start 15 none 0
     (by decide) (by decide) (by decide) rfl rfl (by decide)
     (by decide)⟩

/-! Claim C10: the castling-rights mask of every parsed board. -/

theorem parse_castling_from_15 :
    ∀ (cs : List Char) (r : Nat), parse_castling cs 15 = Except.ok r → r = 15 := by
  intro cs
  induction cs with
  | nil => intro r h; cases h; rfl
  | cons c rest ih =>
    intro r h
    unfold parse_castling at h
    split at h <;>
      first
        | exact ih r (by rw [show (15 : Nat) ||| 1 = 15 from by decide] at h; exact h)
        | exact ih r (by rw [show (15 : Nat) ||| 2 = 15 from by decide] at h; exact h)
        | exact ih r (by rw [show (15 : Nat) ||| 4 = 15 from by decide] at h; exact h)
        | exact ih r (by rw [show (15 : Nat) ||| 8 = 15 from by decide] at h; exact h)
        | exact ih r h
        | cases h

/-- Claim C10.  `from_fen` seeds the castling-rights mask with `0b1111`
and the castling-field loop only ORs bits into it, so every successfully
parsed board carries all four castling rights, whatever the castling
field said. -/
theorem c10_from_fen_rights_always_full (s : String) (b : Board)
    (h : Board.from_fen s = FenResult.ok b) : b.castling_rights = 15 := by
  unfold Board.from_fen at h
  dsimp only at h
  split at h
  · cases h
  split at h
  · cases h
  · cases h
  rename_i board hplacement
  split at h
  · cases h
  rename_i turnv hturn
  split at h
  · cases h
  rename_i rights hrights
  split at h
  · cases h
  rename_i ep hep
  split at h
  · cases h
  rename_i hc hhc
  split at h
  · cases h
  rename_i fm hfm
  cases h
  have h15 : (Board.recompute_occupancy board).castling_rights = 15 := by
    rw [show (Board.recompute_occupancy board).castling_rights =
      board.castling_rights from rfl]
    rw [parse_placement_rights_eq _ _ _ _ _ hplacement]
    rfl
  rw [h15] at hrights
  exact parse_castling_from_15 _ _ hrights

/-- Witness for C10: the parse of the initial position with castling
field `-` still reports the full rights mask. -/
theorem c10_from_fen_rights_always_full_witness :
    (board_of (Board.from_fen
      "rnbqkbnr/pppppppp/8/8/8/8/PPPPPPPP/RNBQKBNR w - - 0 1")).castling_rights
      = 15 :=
  c10_from_fen_rights_always_full
    "rnbqkbnr/pppppppp/8/8/8/8/PPPPPPPP/RNBQKBNR w - - 0 1" _ (by decide)

end Engine

namespace Engine

/-- `src/magic_gen.rs`, `try_make_table` line 87: one step of the
subset ripple `blockers = blockers.wrapping_sub(mask) & mask` in `u64`
arithmetic. -/
def blockers_step (mask blockers : Nat) : Nat :=
  ((blockers + (2 ^ 64 - mask)) % 2 ^ 64) &&& mask

/-- The blocker configuration reached after `n` steps of the ripple,
starting from the empty set as `try_make_table` does. -/
def blockers_iter (mask : Nat) : Nat → Nat
  | 0 => 0
  | n + 1 => blockers_step mask (blockers_iter mask n)

/-- The sequence of blocker configurations the table-filling loop of
`try_make_table` processes: `2 ^ popcnt(mask)` iterations from the
empty set. -/
def blockers_orbit (mask : Nat) : List Nat :=
  (List.range (2 ^ popcnt64 mask)).map (blockers_iter mask)

/-- Structural population count (no fuel), for the proofs. -/
def popcount : Nat → Nat
  | 0 => 0
  | n + 1 => (n + 1) % 2 + popcount ((n + 1) / 2)
decreasing_by exact Nat.div_lt_self (Nat.succ_pos n) Nat.one_lt_two

theorem popcount_zero : popcount 0 = 0 := by simp [popcount]

theorem popcount_pos_eq (n : Nat) (h : n ≠ 0) :
    popcount n = n % 2 + popcount (n / 2) := by
  cases n with
  | zero => exact absurd rfl h
  | succ k => rw [popcount]

theorem popcntAux_zero : ∀ f, popcntAux f 0 = 0 := by
  intro f
  induction f with
  | zero => rfl
  | succ f ih => simp [popcntAux, ih]

theorem popcntAux_eq_popcount : ∀ (f n : Nat), n < 2 ^ f →
    popcntAux f n = popcount n := by
  intro f
  induction f with
  | zero => intro n hn; interval_cases n; simp [popcntAux, popcount_zero]
  | succ f ih =>
    intro n hn
    by_cases h0 : n = 0
    · subst h0; rw [popcntAux_zero, popcount_zero]
    · rw [popcntAux, popcount_pos_eq n h0, ih (n / 2) (by omega)]

theorem popcnt64_eq_popcount (n : Nat) (h : n < 2 ^ 64) :
    popcnt64 n = popcount n :=
  popcntAux_eq_popcount 64 n h

theorem submask_iff (b m : Nat) :
    b &&& m = b ↔ ∀ i, b.testBit i = true → m.testBit i = true := by
  constructor
  · intro h i hi
    by_cases hm : m.testBit i = true
    · exact hm
    · exfalso
      have hx : (b &&& m).testBit i = b.testBit i := by rw [h]
      rw [Nat.testBit_and, hi] at hx
      simp at hx
      exact hm hx
  · intro h
    apply Nat.eq_of_testBit_eq
    intro i
    rw [Nat.testBit_and]
    cases hb : b.testBit i
    · simp
    · simp [h i hb]

theorem submask_le {b m : Nat} (h : b &&& m = b) : b ≤ m :=
  Nat.le_of_testBit ((submask_iff b m).mp h)

theorem sub_eq_xor_of_submask :
    ∀ m b : Nat, b &&& m = b → m - b = m ^^^ b := by
  intro m
  induction m using Nat.strong_induction_on with
  | _ m ih =>
    intro b hb
    by_cases hm : m = 0
    · subst hm
      have : b = 0 := by simpa using hb.symm
      subst this; rfl
    · have hbit := (submask_iff b m).mp hb
      have hb2 : (b / 2) &&& (m / 2) = b / 2 := by
        rw [submask_iff]
        intro i hi
        rw [Nat.testBit_div_two] at hi ⊢
        exact hbit _ hi
      have hmod : b % 2 ≤ m % 2 := by
        rcases Nat.mod_two_eq_zero_or_one b with h | h
        · omega
        · have : b.testBit 0 = true := by
            simp [Nat.testBit_zero, h]
          have := hbit 0 this
          simp [Nat.testBit_zero] at this
          omega
      have hdiv : b / 2 ≤ m / 2 := submask_le hb2
      have ihm := ih (m / 2) (by omega) (b / 2) hb2
      have hx : (m ^^^ b) % 2 = m % 2 - b % 2 := by
        rcases Nat.mod_two_eq_zero_or_one b with h | h <;>
          rcases Nat.mod_two_eq_zero_or_one m with h2 | h2 <;>
            simp [Nat.xor_mod_two_eq_one, h, h2] <;> omega
      have hx2 : (m ^^^ b) / 2 = m / 2 ^^^ b / 2 := Nat.xor_div_two
      omega

end Engine

namespace Engine

theorem exists_odd_factor : ∀ m : Nat, m ≠ 0 → ∃ t k, m = 2 ^ t * (2 * k + 1) := by
  intro m
  induction m using Nat.strong_induction_on with
  | _ m ih =>
    intro hm
    rcases Nat.mod_two_eq_zero_or_one m with h | h
    · have h2 : m / 2 ≠ 0 := by omega
      obtain ⟨t, k, hk⟩ := ih (m / 2) (by omega) h2
      refine ⟨t + 1, k, ?_⟩
      have h2m : m = 2 * (m / 2) := by omega
      rw [h2m, hk]
      ring
    · exact ⟨0, m / 2, by omega⟩

theorem testBit_mul_pow (n x j : Nat) :
    (2 ^ n * x).testBit j = if j < n then false else x.testBit (j - n) := by
  have h := Nat.testBit_mul_pow_two_add x (show 0 < 2 ^ n from Nat.pos_pow_of_pos n (by omega)) j
  simpa using h

theorem testBit_decomp (t m₁ j : Nat) :
    (2 ^ (t + 1) * m₁ + 2 ^ t).testBit j =
      if j < t then false else if j = t then true
      else m₁.testBit (j - (t + 1)) := by
  rw [Nat.testBit_mul_pow_two_add m₁ (show 2 ^ t < 2 ^ (t + 1) from
    Nat.pow_lt_pow_right (by omega) (by omega)) j]
  rcases Nat.lt_trichotomy j t with h | h | h
  · rw [if_pos (show j < t + 1 by omega), if_pos h, Nat.testBit_two_pow]
    simp
    omega
  · subst h
    rw [if_pos (by omega), if_neg (lt_irrefl j), if_pos rfl, Nat.testBit_two_pow]
    simp
  · rw [if_neg (show ¬j < t + 1 by omega), if_neg (show ¬j < t by omega),
      if_neg (show ¬j = t by omega)]

theorem submask_shift_down (n m₁ b : Nat) (h : b &&& (2 ^ n * m₁) = b) :
    b % 2 ^ n = 0 ∧ (b / 2 ^ n) &&& m₁ = b / 2 ^ n ∧ b = 2 ^ n * (b / 2 ^ n) := by
  have hbit := (submask_iff b (2 ^ n * m₁)).mp h
  have hlow : ∀ i, i < n → b.testBit i = false := by
    intro i hi
    by_contra hc
    have hb' : b.testBit i = true := by
      cases hbc : b.testBit i
      · exact absurd hbc hc
      · rfl
    have := hbit i hb'
    rw [testBit_mul_pow] at this
    simp [hi] at this
  have hmod : b % 2 ^ n = 0 := by
    apply Nat.zero_of_testBit_eq_false
    intro i
    rw [Nat.testBit_mod_two_pow]
    by_cases hi : i < n
    · simp [hi, hlow i hi]
    · simp [hi]
  refine ⟨hmod, ?_, by have := Nat.div_add_mod b (2 ^ n); omega⟩
  rw [submask_iff]
  intro i hi
  rw [← Nat.shiftRight_eq_div_pow, Nat.testBit_shiftRight] at hi
  have := hbit _ hi
  rw [testBit_mul_pow] at this
  simpa using this

theorem blockers_step_self (m : Nat) (hm : m ≤ 2 ^ 64) : blockers_step m m = 0 := by
  unfold blockers_step
  have h : m + (2 ^ 64 - m) = 2 ^ 64 := by omega
  rw [h, Nat.mod_self]
  simp

theorem blockers_step_of_lt (m b : Nat) (hm : m < 2 ^ 64) (hb : b < m) :
    blockers_step m b = (2 ^ 64 - (m - b)) &&& m := by
  unfold blockers_step
  congr 1
  have h1 : b + (2 ^ 64 - m) = 2 ^ 64 - (m - b) := by omega
  rw [h1]
  exact Nat.mod_eq_of_lt (by omega)

theorem band_not_sub (m₁ qb j : Nat) (h : qb &&& m₁ = qb) :
    (m₁.testBit j && !((m₁ - qb).testBit j)) = qb.testBit j := by
  rw [sub_eq_xor_of_submask m₁ qb h, Nat.testBit_xor]
  have hsub := (submask_iff qb m₁).mp h j
  cases hq : qb.testBit j <;> cases hm : m₁.testBit j <;> simp_all

end Engine

namespace Engine

theorem t_lt_64 {t m₁ : Nat} (hm : 2 ^ (t + 1) * m₁ + 2 ^ t < 2 ^ 64) :
    t < 64 := by
  have h1 : 2 ^ t < 2 ^ 64 := by omega
  exact (Nat.pow_lt_pow_iff_right (by omega)).mp h1

theorem testBit_of_ge_64 {x : Nat} (hx : x < 2 ^ 64) {j : Nat} (hj : 64 ≤ j) :
    x.testBit j = false := by
  apply Nat.testBit_lt_two_pow
  calc x < 2 ^ 64 := hx
    _ ≤ 2 ^ j := Nat.pow_le_pow_right (by omega) hj

/-- Step lemma A: from a subset of the mask's high part (no lowest bit),
the ripple adds the mask's lowest bit. -/
theorem blockers_step_A (t m₁ b : Nat)
    (hm : 2 ^ (t + 1) * m₁ + 2 ^ t < 2 ^ 64)
    (hb : b &&& (2 ^ (t + 1) * m₁) = b) :
    blockers_step (2 ^ (t + 1) * m₁ + 2 ^ t) b = b + 2 ^ t := by
  have ht := t_lt_64 hm
  have hpt : 0 < 2 ^ t := Nat.pos_pow_of_pos t (by omega)
  have hpt1 : 0 < 2 ^ (t + 1) := Nat.pos_pow_of_pos (t + 1) (by omega)
  have hble : b ≤ 2 ^ (t + 1) * m₁ := submask_le hb
  have hblt : b < 2 ^ (t + 1) * m₁ + 2 ^ t := by
    have : 0 < 2 ^ t := Nat.pos_pow_of_pos t (by omega)
    omega
  rw [blockers_step_of_lt _ _ hm hblt]
  obtain ⟨hmod, hsub, hrep⟩ := submask_shift_down (t + 1) m₁ b hb
  set qb := b / 2 ^ (t + 1) with hqb
  have hqle : qb ≤ m₁ := submask_le hsub
  have hkey : 2 ^ (t + 1) * m₁ + 2 ^ t - b = 2 ^ (t + 1) * (m₁ - qb) + 2 ^ t := by
    have hexp : 2 ^ (t + 1) * qb + 2 ^ (t + 1) * (m₁ - qb) = 2 ^ (t + 1) * m₁ := by
      rw [← Nat.mul_add]
      congr 1
      omega
    omega
  rw [hkey]
  apply Nat.eq_of_testBit_eq
  intro j
  by_cases hj64 : 64 ≤ j
  · rw [Nat.testBit_and]
    rw [testBit_of_ge_64 (x := 2 ^ (t + 1) * m₁ + 2 ^ t) hm hj64]
    rw [testBit_of_ge_64 (x := b + 2 ^ t) (by omega) hj64]
    simp
  · push_neg at hj64
    have hD1 : 2 ^ (t + 1) * (m₁ - qb) + 2 ^ t - 1 =
        2 ^ (t + 1) * (m₁ - qb) + (2 ^ t - 1) := by
      have : 0 < 2 ^ t := Nat.pos_pow_of_pos t (by omega)
      omega
    have hDpos : 0 < 2 ^ (t + 1) * (m₁ - qb) + 2 ^ t := by
      have : 0 < 2 ^ t := Nat.pos_pow_of_pos t (by omega)
      omega
    have hDle : 2 ^ (t + 1) * (m₁ - qb) + 2 ^ t - 1 < 2 ^ 64 := by omega
    have hsubst : 2 ^ 64 - (2 ^ (t + 1) * (m₁ - qb) + 2 ^ t) =
        2 ^ 64 - ((2 ^ (t + 1) * (m₁ - qb) + 2 ^ t - 1) + 1) := by omega
    rw [Nat.testBit_and, hsubst,
      Nat.testBit_two_pow_sub_succ hDle j, hD1,
      Nat.testBit_mul_pow_two_add (m₁ - qb)
        (show 2 ^ t - 1 < 2 ^ (t + 1) by
          have h1 : 2 ^ t < 2 ^ (t + 1) := Nat.pow_lt_pow_right (by omega) (by omega)
          omega) j,
      testBit_decomp]
    rw [hrep, testBit_decomp t qb j]
    rcases Nat.lt_trichotomy j t with h | h | h
    · rw [if_pos h, if_pos h, if_pos (show j < t + 1 by omega)]
      simp [Nat.testBit_two_pow_sub_one, h]
    · subst h
      rw [if_neg (lt_irrefl j), if_neg (lt_irrefl j), if_pos rfl, if_pos rfl,
        if_pos (show j < j + 1 by omega)]
      simp [Nat.testBit_two_pow_sub_one, hj64]
    · rw [if_neg (show ¬j < t by omega), if_neg (show ¬j < t by omega),
        if_neg (show ¬j = t by omega), if_neg (show ¬j = t by omega),
        if_neg (show ¬j < t + 1 by omega)]
      have hdec : decide (j < 64) = true := by simp [hj64]
      rw [hdec, Bool.true_and, Bool.and_comm]
      exact band_not_sub m₁ qb (j - (t + 1)) hsub

/-- Step lemma B: from a subset that contains the mask's lowest bit,
the ripple on the full mask agrees with the ripple on the mask without
its lowest bit applied to the subset without that bit. -/
theorem blockers_step_B (t m₁ b : Nat)
    (hm : 2 ^ (t + 1) * m₁ + 2 ^ t < 2 ^ 64)
    (hb : b &&& (2 ^ (t + 1) * m₁) = b) :
    blockers_step (2 ^ (t + 1) * m₁ + 2 ^ t) (b + 2 ^ t) =
      blockers_step (2 ^ (t + 1) * m₁) b := by
  have ht := t_lt_64 hm
  have hpt : 0 < 2 ^ t := Nat.pos_pow_of_pos t (by omega)
  have hpt1 : 0 < 2 ^ (t + 1) := Nat.pos_pow_of_pos (t + 1) (by omega)
  have hble : b ≤ 2 ^ (t + 1) * m₁ := submask_le hb
  by_cases heq : b = 2 ^ (t + 1) * m₁
  · rw [heq]
    rw [blockers_step_self (2 ^ (t + 1) * m₁ + 2 ^ t) (by omega),
      blockers_step_self (2 ^ (t + 1) * m₁) (by omega)]
  · have hblt : b < 2 ^ (t + 1) * m₁ := by omega
    have hblt2 : b + 2 ^ t < 2 ^ (t + 1) * m₁ + 2 ^ t := by omega
    rw [blockers_step_of_lt (2 ^ (t + 1) * m₁ + 2 ^ t) (b + 2 ^ t) hm hblt2,
      blockers_step_of_lt (2 ^ (t + 1) * m₁) b (by omega) hblt]
    have hsame : 2 ^ (t + 1) * m₁ + 2 ^ t - (b + 2 ^ t) = 2 ^ (t + 1) * m₁ - b := by
      omega
    rw [hsame]
    obtain ⟨hmod, hsub, hrep⟩ := submask_shift_down (t + 1) m₁ b hb
    set qb := b / 2 ^ (t + 1) with hqb
    have hqlt : qb < m₁ := by
      have hqle : qb ≤ m₁ := submask_le hsub
      rcases Nat.lt_or_ge qb m₁ with h | h
      · exact h
      · exfalso
        have : qb = m₁ := by omega
        rw [this] at hrep
        exact heq hrep
    have hkey : 2 ^ (t + 1) * m₁ - b = 2 ^ (t + 1) * (m₁ - qb) := by
      have hexp : 2 ^ (t + 1) * qb + 2 ^ (t + 1) * (m₁ - qb) = 2 ^ (t + 1) * m₁ := by
        rw [← Nat.mul_add]
        congr 1
        omega
      omega
    rw [hkey]
    have hd1 : 1 ≤ m₁ - qb := by omega
    have hD1 : 2 ^ (t + 1) * (m₁ - qb) - 1 =
        2 ^ (t + 1) * (m₁ - qb - 1) + (2 ^ (t + 1) - 1) := by
      have hexp : 2 ^ (t + 1) * (m₁ - qb - 1) + 2 ^ (t + 1) * 1 =
          2 ^ (t + 1) * (m₁ - qb) := by
        rw [← Nat.mul_add]
        congr 1
        omega
      have hp : 0 < 2 ^ (t + 1) := Nat.pos_pow_of_pos _ (by omega)
      omega
    have hDpos : 0 < 2 ^ (t + 1) * (m₁ - qb) := by
      have hp : 0 < 2 ^ (t + 1) := Nat.pos_pow_of_pos _ (by omega)
      exact Nat.mul_pos hp (by omega)
    have hDle : 2 ^ (t + 1) * (m₁ - qb) - 1 < 2 ^ 64 := by omega
    apply Nat.eq_of_testBit_eq
    intro j
    rw [Nat.testBit_and, Nat.testBit_and]
    by_cases hj64 : 64 ≤ j
    · rw [testBit_of_ge_64 (x := 2 ^ (t + 1) * m₁ + 2 ^ t) hm hj64,
        testBit_of_ge_64 (x := 2 ^ (t + 1) * m₁) (by omega) hj64]
    · push_neg at hj64
      have hsubst : 2 ^ 64 - 2 ^ (t + 1) * (m₁ - qb) =
          2 ^ 64 - ((2 ^ (t + 1) * (m₁ - qb) - 1) + 1) := by omega
      rw [hsubst, Nat.testBit_two_pow_sub_succ hDle j, hD1,
        Nat.testBit_mul_pow_two_add (m₁ - qb - 1)
          (show 2 ^ (t + 1) - 1 < 2 ^ (t + 1) from
            Nat.sub_lt (Nat.pos_pow_of_pos _ (by omega)) (by omega)) j,
        testBit_decomp, testBit_mul_pow]
      rcases Nat.lt_trichotomy j t with h | h | h
      · rw [if_pos h, if_pos (show j < t + 1 by omega), if_pos (show j < t + 1 by omega)]
      · subst h
        rw [if_neg (lt_irrefl j), if_pos rfl, if_pos (show j < j + 1 by omega),
          if_pos (show j < j + 1 by omega)]
        simp [Nat.testBit_two_pow_sub_one]
      · rw [if_neg (show ¬j < t by omega), if_neg (show ¬j = t by omega),
          if_neg (show ¬j < t + 1 by omega), if_neg (show ¬j < t + 1 by omega)]

end Engine

namespace Engine

theorem popcount_two_mul (x : Nat) : popcount (2 * x) = popcount x := by
  by_cases hx : x = 0
  · subst hx; rfl
  · rw [popcount_pos_eq (2 * x) (by omega)]
    have h1 : 2 * x % 2 = 0 := by omega
    have h2 : 2 * x / 2 = x := by omega
    rw [h1, h2, Nat.zero_add]

theorem popcount_two_mul_add_one (x : Nat) :
    popcount (2 * x + 1) = popcount x + 1 := by
  rw [popcount_pos_eq (2 * x + 1) (by omega)]
  have h1 : (2 * x + 1) % 2 = 1 := by omega
  have h2 : (2 * x + 1) / 2 = x := by omega
  rw [h1, h2, Nat.add_comm]

theorem popcount_two_pow_mul (n x : Nat) : popcount (2 ^ n * x) = popcount x := by
  induction n with
  | zero => rw [pow_zero, Nat.one_mul]
  | succ n ih =>
    have h : 2 ^ (n + 1) * x = 2 * (2 ^ n * x) := by ring
    rw [h, popcount_two_mul, ih]

theorem popcount_decomp (t k : Nat) :
    popcount (2 ^ (t + 1) * k + 2 ^ t) = popcount k + 1 := by
  have h : 2 ^ (t + 1) * k + 2 ^ t = 2 ^ t * (2 * k + 1) := by ring
  rw [h, popcount_two_pow_mul, popcount_two_mul_add_one]

theorem submask_lift (t k b : Nat) (hb : b &&& (2 ^ (t + 1) * k) = b) :
    b &&& (2 ^ (t + 1) * k + 2 ^ t) = b := by
  rw [submask_iff]
  intro i hi
  have := (submask_iff b (2 ^ (t + 1) * k)).mp hb i hi
  rw [testBit_mul_pow] at this
  rw [testBit_decomp]
  by_cases h1 : i < t + 1
  · simp [h1] at this
  · have h2 : ¬i < t := by omega
    have h3 : ¬i = t := by omega
    rw [if_neg h2, if_neg h3]
    simpa [h1] using this

theorem submask_add_bit (t k b : Nat) (hb : b &&& (2 ^ (t + 1) * k) = b) :
    (b + 2 ^ t) &&& (2 ^ (t + 1) * k + 2 ^ t) = b + 2 ^ t ∧
    (b + 2 ^ t).testBit t = true ∧ b.testBit t = false := by
  obtain ⟨hmod, hsub, hrep⟩ := submask_shift_down (t + 1) k b hb
  have hbit : ∀ j, (b + 2 ^ t).testBit j =
      if j < t then false else if j = t then true
      else (b / 2 ^ (t + 1)).testBit (j - (t + 1)) := by
    intro j
    calc (b + 2 ^ t).testBit j
        = (2 ^ (t + 1) * (b / 2 ^ (t + 1)) + 2 ^ t).testBit j := by rw [← hrep]
      _ = _ := testBit_decomp t (b / 2 ^ (t + 1)) j
  refine ⟨?_, ?_, ?_⟩
  · rw [submask_iff]
    intro i hi
    rw [hbit i] at hi
    rw [testBit_decomp]
    by_cases h1 : i < t
    · rw [if_pos h1] at hi; cases hi
    · by_cases h2 : i = t
      · rw [if_neg h1, if_pos h2]
      · rw [if_neg h1, if_neg h2] at hi
        rw [if_neg h1, if_neg h2]
        exact (submask_iff _ k).mp hsub _ hi
  · rw [hbit t, if_neg (lt_irrefl t), if_pos rfl]
  · rw [hrep, testBit_mul_pow, if_pos (show t < t + 1 by omega)]

end Engine

namespace Engine

/-- Every subset of the decomposed mask splits into a subset of the high
part plus an optional lowest bit. -/
theorem submask_split (t k s : Nat)
    (hs : s &&& (2 ^ (t + 1) * k + 2 ^ t) = s) :
    ∃ q ε, ε ≤ 1 ∧ (2 ^ (t + 1) * q) &&& (2 ^ (t + 1) * k) = 2 ^ (t + 1) * q ∧
      q &&& k = q ∧ s = 2 ^ (t + 1) * q + ε * 2 ^ t := by
  have hbit := (submask_iff s _).mp hs
  have hbit2 : ∀ j, s.testBit j = true →
      (if j < t then False else if j = t then True else k.testBit (j - (t + 1)) = true) := by
    intro j hj
    have := hbit j hj
    rw [testBit_decomp] at this
    by_cases h1 : j < t
    · rw [if_pos h1] at this; cases this
    · by_cases h2 : j = t
      · rw [if_neg h1, if_pos h2]; trivial
      · rw [if_neg h1, if_neg h2] at this
        rw [if_neg h1, if_neg h2]
        exact this
  refine ⟨s / 2 ^ (t + 1), if s.testBit t then 1 else 0, by split <;> omega, ?_, ?_, ?_⟩
  · have hq : (s / 2 ^ (t + 1)) &&& k = s / 2 ^ (t + 1) := by
      rw [submask_iff]
      intro i hi
      rw [← Nat.shiftRight_eq_div_pow, Nat.testBit_shiftRight] at hi
      have := hbit2 _ hi
      rw [if_neg (show ¬t + 1 + i < t by omega), if_neg (show ¬t + 1 + i = t by omega)] at this
      simpa using this
    rw [submask_iff]
    intro i hi
    rw [testBit_mul_pow] at hi ⊢
    by_cases h1 : i < t + 1
    · rw [if_pos h1] at hi; cases hi
    · rw [if_neg h1] at hi ⊢
      exact (submask_iff _ k).mp hq _ hi
  · rw [submask_iff]
    intro i hi
    rw [← Nat.shiftRight_eq_div_pow, Nat.testBit_shiftRight] at hi
    have := hbit2 _ hi
    rw [if_neg (show ¬t + 1 + i < t by omega), if_neg (show ¬t + 1 + i = t by omega)] at this
    simpa using this
  · have hdm := Nat.div_add_mod s (2 ^ (t + 1))
    have hmodval : s % 2 ^ (t + 1) = (if s.testBit t then 1 else 0) * 2 ^ t := by
      apply Nat.eq_of_testBit_eq
      intro j
      rw [Nat.testBit_mod_two_pow]
      by_cases hj : j < t + 1
      · by_cases hjt : j = t
        · subst hjt
          cases hst : s.testBit j
          · simp [hj, hst, Nat.testBit_two_pow]
          · simp [hj, hst, Nat.testBit_two_pow]
        · have hjlt : j < t := by omega
          have hsj : s.testBit j = false := by
            cases hsb : s.testBit j
            · rfl
            · have := hbit2 j hsb
              rw [if_pos hjlt] at this
              cases this
          cases hst : s.testBit t <;>
            simp [hj, hsj, hst, Nat.testBit_two_pow, Nat.ne_of_gt hjlt, hjt]
      · cases hst : s.testBit t
        · simp [hj, hst]
        · simp [hj, hst, Nat.testBit_two_pow, show ¬t = j by omega]
    omega

end Engine

namespace Engine

/-- The interleaving law: the ripple on the full mask alternates between
the previous orbit element of the high mask and that element plus the
lowest bit. -/
theorem orbit_key (t k : Nat)
    (hm : 2 ^ (t + 1) * k + 2 ^ t < 2 ^ 64)
    (hS : ∀ i, i ≤ 2 ^ popcount (2 ^ (t + 1) * k) →
      blockers_iter (2 ^ (t + 1) * k) i &&& (2 ^ (t + 1) * k) =
        blockers_iter (2 ^ (t + 1) * k) i) :
    ∀ i, i ≤ 2 * 2 ^ popcount (2 ^ (t + 1) * k) →
      blockers_iter (2 ^ (t + 1) * k + 2 ^ t) i =
        blockers_iter (2 ^ (t + 1) * k) (i / 2) + (i % 2) * 2 ^ t := by
  intro i
  induction i with
  | zero => intro _; simp [blockers_iter]
  | succ i ih =>
    intro hle
    have hi := ih (by omega)
    show blockers_step (2 ^ (t + 1) * k + 2 ^ t)
      (blockers_iter (2 ^ (t + 1) * k + 2 ^ t) i) = _
    rw [hi]
    rcases Nat.mod_two_eq_zero_or_one i with hpar | hpar
    · rw [hpar]
      simp only [Nat.zero_mul, Nat.add_zero]
      rw [blockers_step_A t k _ hm (hS (i / 2) (by omega))]
      have h1 : (i + 1) / 2 = i / 2 := by omega
      have h2 : (i + 1) % 2 = 1 := by omega
      rw [h1, h2, Nat.one_mul]
    · rw [hpar]
      simp only [Nat.one_mul]
      rw [blockers_step_B t k _ hm (hS (i / 2) (by omega))]
      have hstep : blockers_step (2 ^ (t + 1) * k)
          (blockers_iter (2 ^ (t + 1) * k) (i / 2)) =
          blockers_iter (2 ^ (t + 1) * k) (i / 2 + 1) := rfl
      rw [hstep]
      have h1 : (i + 1) / 2 = i / 2 + 1 := by omega
      have h2 : (i + 1) % 2 = 0 := by omega
      rw [h1, h2]
      simp only [Nat.zero_mul, Nat.add_zero]

end Engine

namespace Engine

/-- The four orbit properties of the ripple: every prefix value is a
subset of the mask, the orbit returns to the empty set after exactly
`2 ^ popcount mask` steps, no value repeats before that, and every
subset of the mask is reached. -/
theorem orbit_ok : ∀ m : Nat, m < 2 ^ 64 →
    (∀ i, i ≤ 2 ^ popcount m → blockers_iter m i &&& m = blockers_iter m i) ∧
    blockers_iter m (2 ^ popcount m) = 0 ∧
    (∀ i j, i < j → j < 2 ^ popcount m → blockers_iter m i ≠ blockers_iter m j) ∧
    (∀ s, s &&& m = s → ∃ i, i < 2 ^ popcount m ∧ blockers_iter m i = s) := by
  intro m
  induction m using Nat.strong_induction_on with
  | _ m ih =>
    intro hm64
    by_cases hm0 : m = 0
    · subst hm0
      have hone : 2 ^ popcount 0 = 1 := by rw [popcount_zero, pow_zero]
      have hit1 : blockers_iter 0 1 = 0 := by decide
      refine ⟨?_, ?_, ?_, ?_⟩
      · intro i hi
        rw [hone] at hi
        interval_cases i
        · rfl
        · simp [hit1]
      · rw [hone, hit1]
      · intro i j hij hj
        rw [hone] at hj
        omega
      · intro s hs
        have hs0 : s = 0 := by simpa using hs.symm
        exact ⟨0, by rw [hone]; omega, hs0.symm⟩
    · obtain ⟨t, k, hf⟩ := exists_odd_factor m hm0
      have hdec : m = 2 ^ (t + 1) * k + 2 ^ t := by rw [hf]; ring
      have hpt : 0 < 2 ^ t := Nat.pos_pow_of_pos t (by omega)
      rw [hdec] at hm64 ⊢
      have hM'lt : 2 ^ (t + 1) * k < m := by omega
      have hM64 : 2 ^ (t + 1) * k < 2 ^ 64 := by omega
      obtain ⟨S2, Z2, I2, C2⟩ := ih (2 ^ (t + 1) * k) hM'lt hM64
      have hkey := orbit_key t k hm64 S2
      have hpow : 2 ^ popcount (2 ^ (t + 1) * k + 2 ^ t) =
          2 * 2 ^ popcount (2 ^ (t + 1) * k) := by
        rw [popcount_decomp, pow_succ, popcount_two_pow_mul]
        ring
      have hKpos : 0 < 2 ^ popcount (2 ^ (t + 1) * k) :=
        Nat.pos_pow_of_pos _ (by omega)
      refine ⟨?_, ?_, ?_, ?_⟩
      · intro i hi
        rw [hpow] at hi
        rw [hkey i hi]
        have hsub2 := S2 (i / 2) (by omega)
        rcases Nat.mod_two_eq_zero_or_one i with hp | hp
        · rw [hp]
          simp only [Nat.zero_mul, Nat.add_zero]
          exact submask_lift t k _ hsub2
        · rw [hp]
          simp only [Nat.one_mul]
          exact (submask_add_bit t k _ hsub2).1
      · rw [hpow, hkey (2 * 2 ^ popcount (2 ^ (t + 1) * k)) (by omega)]
        have h1 : 2 * 2 ^ popcount (2 ^ (t + 1) * k) / 2 =
            2 ^ popcount (2 ^ (t + 1) * k) := by omega
        have h2 : 2 * 2 ^ popcount (2 ^ (t + 1) * k) % 2 = 0 := by omega
        rw [h1, h2, Z2]
        simp
      · intro i j hij hj
        rw [hpow] at hj
        rw [hkey i (by omega), hkey j (by omega)]
        intro heq1
        rcases Nat.mod_two_eq_zero_or_one i with hpi | hpi <;>
          rcases Nat.mod_two_eq_zero_or_one j with hpj | hpj
        · rw [hpi, hpj] at heq1
          simp only [Nat.zero_mul, Nat.add_zero] at heq1
          exact I2 (i / 2) (j / 2) (by omega) (by omega) heq1
        · rw [hpi, hpj] at heq1
          simp only [Nat.zero_mul, Nat.add_zero, Nat.one_mul] at heq1
          have hbi := (submask_add_bit t k _ (S2 (i / 2) (by omega))).2.2
          have hbj := (submask_add_bit t k _ (S2 (j / 2) (by omega))).2.1
          rw [heq1] at hbi
          rw [hbj] at hbi
          cases hbi
        · rw [hpi, hpj] at heq1
          simp only [Nat.zero_mul, Nat.add_zero, Nat.one_mul] at heq1
          have hbi := (submask_add_bit t k _ (S2 (i / 2) (by omega))).2.1
          have hbj := (submask_add_bit t k _ (S2 (j / 2) (by omega))).2.2
          rw [heq1] at hbi
          rw [hbi] at hbj
          cases hbj
        · rw [hpi, hpj] at heq1
          simp only [Nat.one_mul] at heq1
          have heq2 : blockers_iter (2 ^ (t + 1) * k) (i / 2) =
              blockers_iter (2 ^ (t + 1) * k) (j / 2) := by omega
          exact I2 (i / 2) (j / 2) (by omega) (by omega) heq2
      · intro s hs
        obtain ⟨q, ε, hε, hqsubM, hqsubk, hsplit⟩ := submask_split t k s hs
        obtain ⟨i2, hi2, hvals⟩ := C2 (2 ^ (t + 1) * q) hqsubM
        refine ⟨2 * i2 + ε, ?_, ?_⟩
        · rw [hpow]
          omega
        · rw [hkey (2 * i2 + ε) (by omega)]
          have h1 : (2 * i2 + ε) / 2 = i2 := by omega
          have h2 : (2 * i2 + ε) % 2 = ε := by omega
          rw [h1, h2, hvals, ← hsplit]

end Engine

namespace Engine

/-- Claim C9.  For every `u64` mask, the subtract-and-mask ripple of
`try_make_table`, started from the empty set, visits every subset of the
mask exactly once — the orbit of length `2 ^ popcnt(mask)` contains
exactly the subsets of the mask, with no repetition — and returns to the
empty set after exactly `2 ^ popcnt(mask)` steps and not before, so the
do-while loop of `try_make_table` terminates for every mask (and every
candidate magic, which the loop control never reads).  Relevant-blocker
masks are `u64` values, so the hypothesis covers them all. -/
theorem c9_subset_enumeration (mask : Nat) (hmask : mask < 2 ^ 64) :
    (∀ s, s ∈ blockers_orbit mask ↔ s &&& mask = s) ∧
    (blockers_orbit mask).Nodup ∧
    (blockers_orbit mask).length = 2 ^ popcnt64 mask ∧
    blockers_iter mask (2 ^ popcnt64 mask) = 0 ∧
    (∀ j, 0 < j → j < 2 ^ popcnt64 mask → blockers_iter mask j ≠ 0) := by
  obtain ⟨S, Z, I, C⟩ := orbit_ok mask hmask
  have hpc : popcnt64 mask = popcount mask := popcnt64_eq_popcount mask hmask
  have horb : blockers_orbit mask =
      (List.range (2 ^ popcount mask)).map (blockers_iter mask) := by
    unfold blockers_orbit
    rw [hpc]
  refine ⟨?_, ?_, ?_, ?_, ?_⟩
  · intro s
    constructor
    · intro hmem
      rw [horb, List.mem_map] at hmem
      obtain ⟨i, hi, hval⟩ := hmem
      rw [List.mem_range] at hi
      rw [← hval]
      exact S i (by omega)
    · intro hsub
      obtain ⟨i, hi, hval⟩ := C s hsub
      rw [horb, List.mem_map]
      exact ⟨i, by rw [List.mem_range]; omega, hval⟩
  · rw [horb]
    refine (List.nodup_range _).map_on ?_
    intro x hx y hy hxy
    rw [List.mem_range] at hx hy
    by_contra hne
    rcases Nat.lt_or_ge x y with h | h
    · exact I x y h hy hxy
    · exact I y x (by omega) hx hxy.symm
  · rw [horb, List.length_map, List.length_range, hpc]
  · rw [hpc]
    exact Z
  · intro j hj0 hjlt
    intro hz
    have hzz : blockers_iter mask 0 = blockers_iter mask j := by
      rw [hz]
      rfl
    exact I 0 j hj0 (by rw [hpc] at hjlt; omega) hzz

/-- Witness for C9: the enumeration properties at the relevant-blocker
mask of a rook on a1. -/
theorem c9_subset_enumeration_witness :
    (∀ s, s ∈ blockers_orbit (relevant_blockers Piece.Rook 0) ↔
      s &&& relevant_blockers Piece.Rook 0 = s) ∧
    (blockers_orbit (relevant_blockers Piece.Rook 0)).Nodup ∧
    (blockers_orbit (relevant_blockers Piece.Rook 0)).length =
      2 ^ popcnt64 (relevant_blockers Piece.Rook 0) ∧
    blockers_iter (relevant_blockers Piece.Rook 0)
      (2 ^ popcnt64 (relevant_blockers Piece.Rook 0)) = 0 ∧
    (∀ j, 0 < j → j < 2 ^ popcnt64 (relevant_blockers Piece.Rook 0) →
      blockers_iter (relevant_blockers Piece.Rook 0) j ≠ 0) :=
  c9_subset_enumeration (relevant_blockers Piece.Rook 0) (by decide)

end Engine

